import Mathlib

/-!
Shallow embedding of the route-enrichment core of `server.js` (WHA ADS-B
viewer).  Pure logic is translated to Lean functions; global mutable state
(`routeCache`, `routeSourceStats`, the reference-data snapshots) becomes
explicit state passing; each outbound HTTP call is replaced by an oracle
parameter describing the upstream response, so that the control flow around
the calls is modelled exactly.  JS strings are modelled as Lean `String`
(a list of characters); JS `undefined`/missing values as `Option`;
JS string truthiness (`""` is falsy) is modelled explicitly.
-/

namespace WHA

/-- JS `String.prototype.toUpperCase()` restricted to the code's data
(ASCII callsigns and airport codes): uppercase every character. -/
def jsToUpperCase (s : String) : String :=
  ⟨s.data.map Char.toUpper⟩

/-- Whitespace recognised by JS `String.prototype.trim()`, restricted to
the ASCII whitespace that can occur in feed callsigns. -/
def jsIsWs (c : Char) : Bool :=
  c == ' ' || c == '\t' || c == '\n' || c == '\r' || c == '\x0b' || c == '\x0c'

/-- JS `String.prototype.trim()`: drop leading and trailing whitespace. -/
def jsTrim (s : String) : String :=
  ⟨((s.data.dropWhile jsIsWs).reverse.dropWhile jsIsWs).reverse⟩

/-- JS truthiness of a possibly-missing string value: `undefined`, `null`
and `""` are falsy, every other string is truthy. -/
def truthy : Option String → Bool
  | none => false
  | some s => !(s == "")

/-- JS `a || b` on possibly-missing string values: keep `a` when truthy,
otherwise fall back to `b`. -/
def jsOr (a b : Option String) : Option String :=
  if truthy a then a else b

/-- `(Char.ofNat n).toNat = n` for any scalar value `n`. -/
theorem char_toNat_ofNat (n : Nat) (h : n.isValidChar) : (Char.ofNat n).toNat = n := by
  simp only [Char.ofNat, h, dite_true, Char.ofNatAux, Char.toNat]
  simp [UInt32.toNat, UInt32.ofNatCore]

/-- `Char.toUpper` is idempotent. -/
theorem char_toUpper_idem (c : Char) : (c.toUpper).toUpper = c.toUpper := by
  by_cases h : c.toNat ≥ 97 ∧ c.toNat ≤ 122
  · have hv : (c.toNat - 32).isValidChar := by
      unfold Nat.isValidChar
      left; omega
    have h2 : (Char.ofNat (c.toNat - 32)).toNat = c.toNat - 32 := char_toNat_ofNat _ hv
    have e1 : c.toUpper = Char.ofNat (c.toNat - 32) := by
      show (if c.toNat ≥ 97 ∧ c.toNat ≤ 122 then Char.ofNat (c.toNat - 32) else c) = _
      rw [if_pos h]
    rw [e1]
    show (if (Char.ofNat (c.toNat - 32)).toNat ≥ 97 ∧ (Char.ofNat (c.toNat - 32)).toNat ≤ 122
          then Char.ofNat ((Char.ofNat (c.toNat - 32)).toNat - 32) else Char.ofNat (c.toNat - 32)) = _
    rw [if_neg]
    omega
  · have e1 : c.toUpper = c := by
      show (if c.toNat ≥ 97 ∧ c.toNat ≤ 122 then Char.ofNat (c.toNat - 32) else c) = _
      rw [if_neg h]
    rw [e1, e1]

/-- `jsToUpperCase` is idempotent. -/
theorem jsToUpperCase_idem (s : String) : jsToUpperCase (jsToUpperCase s) = jsToUpperCase s := by
  unfold jsToUpperCase
  cases s with
  | mk data =>
    simp only [List.map_map]
    congr 1
    induction data with
    | nil => rfl
    | cons c cs ih => simp [Function.comp, char_toUpper_idem, ih]

/-- Uppercasing preserves (non-)emptiness. -/
theorem jsToUpperCase_eq_empty_iff (s : String) : jsToUpperCase s = "" ↔ s = "" := by
  unfold jsToUpperCase
  cases s with
  | mk data =>
    show (⟨data.map Char.toUpper⟩ : String) = ⟨[]⟩ ↔ (⟨data⟩ : String) = ⟨[]⟩
    simp [String.ext_iff, List.map_eq_nil_iff]

/-- Airport record held in the in-memory airport DB: city and country name
from the OpenFlights row (`loadAirportDb`). -/
structure AirportInfo where
  city : String
  countryName : String
deriving DecidableEq

/-- The airline ISO-2 lookup computed by `getAirportDisplay`:
`countries[countryName] || null` (a present but empty value is falsy). -/
def iso2Lookup (countries : List (String × String)) (countryName : String) : Option String :=
  match countries.lookup countryName with
  | some v => if v = "" then none else some v
  | none => none

/-- `getAirportDisplay(icaoCode)` from `server.js`, with the two memoized
snapshots (`airportsByIcao`, `countryNameToIso2`) passed explicitly as
association lists (newest binding first, JS-object lookup semantics). -/
def getAirportDisplay (airports : List (String × AirportInfo))
    (countries : List (String × String)) (icaoCode : String) : Option String :=
  if icaoCode = "" then none
  else
    let icao := jsToUpperCase icaoCode
    match airports.lookup icao with
    | none => none
    | some info =>
      let city := info.city
      let countryName := info.countryName
      let iso2 := iso2Lookup countries countryName
      if city = "" ∧ countryName = "" then none
      else if city ≠ "" ∧ iso2.isSome then some (city ++ ", " ++ iso2.getD "")
      else if city ≠ "" ∧ countryName ≠ "" then some (city ++ ", " ++ countryName)
      else if city ≠ "" then some city
      else if countryName ≠ "" then some countryName
      else none

/-- A successful association-list lookup comes from an entry of the list. -/
theorem lookup_mem {α β : Type} [BEq α] [LawfulBEq α] {l : List (α × β)} {k : α} {v : β}
    (h : l.lookup k = some v) : (k, v) ∈ l := by
  induction l with
  | nil => simp [List.lookup] at h
  | cons p rest ih =>
    obtain ⟨a, b⟩ := p
    rw [List.lookup_cons] at h
    by_cases hk : k == a
    · simp only [hk, cond_true] at h
      cases h
      have : k = a := eq_of_beq hk
      subst this
      exact List.mem_cons_self _ _
    · simp only [Bool.not_eq_true] at hk
      simp only [hk, cond_false] at h
      exact List.mem_cons_of_mem _ (ih h)

/-- C5: branch priority of `getAirportDisplay` — `"{city}, {iso2}"` when both
city and ISO-2 resolve; else `"{city}, {countryName}"`; else bare city; else
bare country name; else `null` (no record or neither field populated).
`hcv` and `hck` record that the country map (as built by `loadCountryDb`)
never stores an empty value or an empty key. -/
theorem getAirportDisplay_priority
    (airports : List (String × AirportInfo)) (countries : List (String × String))
    (hcv : (countries.all fun p => p.2 != "") = true)
    (hck : countries.lookup "" = none)
    (code : String) (hcode : code ≠ "") :
    (∀ info i, airports.lookup (jsToUpperCase code) = some info → info.city ≠ "" →
      countries.lookup info.countryName = some i →
      getAirportDisplay airports countries code = some (info.city ++ ", " ++ i)) ∧
    (∀ info, airports.lookup (jsToUpperCase code) = some info → info.city ≠ "" →
      countries.lookup info.countryName = none → info.countryName ≠ "" →
      getAirportDisplay airports countries code = some (info.city ++ ", " ++ info.countryName)) ∧
    (∀ info, airports.lookup (jsToUpperCase code) = some info → info.city ≠ "" →
      info.countryName = "" →
      getAirportDisplay airports countries code = some info.city) ∧
    (∀ info, airports.lookup (jsToUpperCase code) = some info → info.city = "" →
      info.countryName ≠ "" →
      getAirportDisplay airports countries code = some info.countryName) ∧
    (airports.lookup (jsToUpperCase code) = none →
      getAirportDisplay airports countries code = none) ∧
    (∀ info, airports.lookup (jsToUpperCase code) = some info → info.city = "" →
      info.countryName = "" →
      getAirportDisplay airports countries code = none) := by
  have hcv' : ∀ p ∈ countries, p.2 ≠ "" := by
    intro p hp
    have := List.all_eq_true.mp hcv p hp
    exact bne_iff_ne.mp this
  refine ⟨?_, ?_, ?_, ?_, ?_, ?_⟩
  · intro info i hinfo hcity hiso
    have hi : i ≠ "" := hcv' (info.countryName, i) (lookup_mem hiso)
    simp only [getAirportDisplay, if_neg hcode, hinfo, iso2Lookup, hiso, if_neg hi]
    have h1 : ¬(info.city = "" ∧ info.countryName = "") := fun h => hcity h.1
    rw [if_neg h1, if_pos ⟨hcity, rfl⟩]
    rfl
  · intro info hinfo hcity hiso hcn
    simp only [getAirportDisplay, if_neg hcode, hinfo, iso2Lookup, hiso]
    have h1 : ¬(info.city = "" ∧ info.countryName = "") := fun h => hcity h.1
    rw [if_neg h1]
    have h2 : ¬(info.city ≠ "" ∧ (none : Option String).isSome) := by simp
    rw [if_neg h2, if_pos ⟨hcity, hcn⟩]
  · intro info hinfo hcity hcn
    have hiso : countries.lookup info.countryName = none := hcn ▸ hck
    simp only [getAirportDisplay, if_neg hcode, hinfo, iso2Lookup, hiso]
    have h1 : ¬(info.city = "" ∧ info.countryName = "") := fun h => hcity h.1
    rw [if_neg h1]
    have h2 : ¬(info.city ≠ "" ∧ (none : Option String).isSome) := by simp
    rw [if_neg h2]
    have h3 : ¬(info.city ≠ "" ∧ info.countryName ≠ "") := fun h => h.2 hcn
    rw [if_neg h3, if_pos hcity]
  · intro info hinfo hcity hcn
    simp only [getAirportDisplay, if_neg hcode, hinfo, iso2Lookup]
    have h1 : ¬(info.city = "" ∧ info.countryName = "") := fun h => hcn h.2
    rw [if_neg h1]
    have h2 : ¬(info.city ≠ "" ∧ (iso2Lookup countries info.countryName).isSome) :=
      fun h => h.1 hcity
    simp only [iso2Lookup] at h2
    rw [if_neg h2]
    have h3 : ¬(info.city ≠ "" ∧ info.countryName ≠ "") := fun h => h.1 hcity
    rw [if_neg h3]
    rw [if_neg (fun h => h hcity), if_pos hcn]
  · intro hnone
    simp only [getAirportDisplay, if_neg hcode, hnone]
  · intro info hinfo hcity hcn
    simp only [getAirportDisplay, if_neg hcode, hinfo]
    rw [if_pos ⟨hcity, hcn⟩]

/-- Concrete instances of the `getAirportDisplay` branch priority: all four
display branches plus the "neither field" null branch. -/
theorem getAirportDisplay_priority_witness :
    getAirportDisplay [("CYYZ", ⟨"Toronto", "Canada"⟩)] [("Canada", "CA")] "cyyz" =
      some "Toronto, CA" ∧
    getAirportDisplay [("CYYZ", ⟨"Toronto", "Canada"⟩)] [] "cyyz" =
      some "Toronto, Canada" ∧
    getAirportDisplay [("CYYZ", ⟨"Toronto", ""⟩)] [("Canada", "CA")] "cyyz" =
      some "Toronto" ∧
    getAirportDisplay [("CYYZ", ⟨"", "Canada"⟩)] [("Canada", "CA")] "cyyz" =
      some "Canada" ∧
    getAirportDisplay [("CYYZ", ⟨"", ""⟩)] [("Canada", "CA")] "cyyz" = none := by
  refine ⟨?_, ?_, ?_, ?_, ?_⟩
  · exact (getAirportDisplay_priority _ _ (by decide) (by decide) "cyyz" (by decide)).1
      ⟨"Toronto", "Canada"⟩ "CA" (by decide) (by decide) (by decide)
  · exact (getAirportDisplay_priority _ _ (by decide) (by decide) "cyyz" (by decide)).2.1
      ⟨"Toronto", "Canada"⟩ (by decide) (by decide) (by decide) (by decide)
  · exact (getAirportDisplay_priority _ _ (by decide) (by decide) "cyyz" (by decide)).2.2.1
      ⟨"Toronto", ""⟩ (by decide) (by decide) (by decide)
  · exact (getAirportDisplay_priority _ _ (by decide) (by decide) "cyyz" (by decide)).2.2.2.1
      ⟨"", "Canada"⟩ (by decide) (by decide) (by decide)
  · exact (getAirportDisplay_priority _ _ (by decide) (by decide) "cyyz" (by decide)).2.2.2.2.2
      ⟨"", ""⟩ (by decide) (by decide) (by decide)

/-! ## Adaptive route resolver (`routeCache`, `routeSourceStats`) -/

/-- A resolved route: `{ originIcao, destinationIcao }`. -/
structure RouteResult where
  originIcao : String
  destinationIcao : String
deriving DecidableEq

/-- The three route sources, named as in `server.js`. -/
inductive Source
  | adsbdb
  | aerodatabox
  | aviationstack
deriving DecidableEq, Fintype

/-- Per-airline success counters (`routeSourceStats[airlineKey]`). -/
structure SourceStats where
  adsbdb : Nat
  aerodatabox : Nat
  aviationstack : Nat
deriving DecidableEq

/-- Read the counter of one source. -/
def SourceStats.get (st : SourceStats) : Source → Nat
  | .adsbdb => st.adsbdb
  | .aerodatabox => st.aerodatabox
  | .aviationstack => st.aviationstack

/-- Increment the counter of one source. -/
def SourceStats.incr (st : SourceStats) : Source → SourceStats
  | .adsbdb => { st with adsbdb := st.adsbdb + 1 }
  | .aerodatabox => { st with aerodatabox := st.aerodatabox + 1 }
  | .aviationstack => { st with aviationstack := st.aviationstack + 1 }

/-- `routeSourceStats`: airline key → per-source counters, as an association
list with the newest binding first (JS-object assignment semantics). -/
abbrev StatsMap := List (String × SourceStats)

/-- `routeCache`: normalized callsign → route or `null` (the stored absent
sentinel), as an association list.  The outer `Option` is key presence
(`hasOwnProperty`), the inner one the stored `null`. -/
abbrev RouteCache := List (String × Option RouteResult)

/-- Uppercase ASCII letter (the `[A-Z]` character class). -/
def isUpperAlpha (c : Char) : Bool := 'A' ≤ c && c ≤ 'Z'

/-- The callsign key used by the resolver: `callsign.trim().toUpperCase()`. -/
def normalizeCallsign (cs : String) : String := jsToUpperCase (jsTrim cs)

/-- `getAirlineKeyFromCallsign` from `server.js`: the leading run of `[A-Z]`
of the trimmed, uppercased callsign (`^([A-Z]+)`), or `"DEFAULT"`. -/
def getAirlineKeyFromCallsign (callsignKey : String) : String :=
  if callsignKey = "" then "DEFAULT"
  else
    let cs := normalizeCallsign callsignKey
    let letters := cs.data.takeWhile isUpperAlpha
    if letters.isEmpty then "DEFAULT" else ⟨letters⟩

/-- `recordRouteSourceSuccess` from `server.js`: initialize the airline's
counters to zeros when absent, then add one to the named source. -/
def recordRouteSourceSuccess (stats : StatsMap) (airlineKey : String)
    (sourceName : Source) : StatsMap :=
  let cur := (stats.lookup airlineKey).getD ⟨0, 0, 0⟩
  (airlineKey, cur.incr sourceName) :: stats

/-- The fixed default try-order: primary, flight-number, flight-search. -/
def defaultOrder : List Source := [.adsbdb, .aerodatabox, .aviationstack]

/-- Stable descending insertion by score; together with the `foldr` below it
realizes the ECMAScript stable `Array.prototype.sort` with comparator
`(a, b) => stats[b] - stats[a]` used by `getRouteSourceOrderForAirline`. -/
def insertByCount (score : Source → Nat) (x : Source) : List Source → List Source
  | [] => [x]
  | y :: ys => if score y ≤ score x then x :: y :: ys else y :: insertByCount score x ys

/-- `getRouteSourceOrderForAirline` from `server.js`: default order when the
airline has no stats, else the default order stably sorted by descending
success count. -/
def getRouteSourceOrderForAirline (stats : StatsMap) (airlineKey : String) : List Source :=
  match stats.lookup airlineKey with
  | none => defaultOrder
  | some s => defaultOrder.foldr (insertByCount s.get) []

/-- Resolver-owned mutable state: the route cache and the success stats. -/
structure ResolverState where
  routeCache : RouteCache
  routeSourceStats : StatsMap
deriving DecidableEq

/-- Result of one `fetchRouteForCallsign` call: the returned value, the
state after the call, and the ordered list of adapters actually invoked. -/
structure ResolveOut where
  result : Option RouteResult
  state : ResolverState
  trace : List Source
deriving DecidableEq

/-- The acceptance check of the resolver loop:
`result && result.originIcao && result.destinationIcao`. -/
def usableResult : Option RouteResult → Bool
  | none => false
  | some r => !(r.originIcao == "") && !(r.destinationIcao == "")

/-- The resolver's `for (const source of sourceOrder)` loop: invoke each
adapter in turn, stop at the first usable result, and report the list of
adapters invoked. -/
def runAdapters (fetch : Source → Option RouteResult) :
    List Source → Option (Source × RouteResult) × List Source
  | [] => (none, [])
  | s :: rest =>
    match fetch s with
    | some r =>
      if r.originIcao ≠ "" ∧ r.destinationIcao ≠ "" then (some (s, r), [s])
      else
        match runAdapters fetch rest with
        | (out, tr) => (out, s :: tr)
    | none =>
      match runAdapters fetch rest with
      | (out, tr) => (out, s :: tr)

/-- `fetchRouteForCallsign` from `server.js`, with the adapter calls
abstracted to the oracle `fetch` (one upstream response environment per
source and callsign key). -/
def fetchRouteForCallsign (fetch : Source → String → Option RouteResult)
    (st : ResolverState) (callsign : String) : ResolveOut :=
  if callsign = "" then ⟨none, st, []⟩
  else
    let key := normalizeCallsign callsign
    if key = "" then ⟨none, st, []⟩
    else
      match st.routeCache.lookup key with
      | some cached => ⟨cached, st, []⟩
      | none =>
        let airlineKey := getAirlineKeyFromCallsign key
        let sourceOrder := getRouteSourceOrderForAirline st.routeSourceStats airlineKey
        match runAdapters (fun s => fetch s key) sourceOrder with
        | (some (src, r), tr) =>
          ⟨some r, ⟨(key, some r) :: st.routeCache,
            recordRouteSourceSuccess st.routeSourceStats airlineKey src⟩, tr⟩
        | (none, tr) =>
          ⟨none, ⟨(key, none) :: st.routeCache, st.routeSourceStats⟩, tr⟩

/-- Any sequence of further resolver calls, applied to the state. -/
def resolveMany (calls : List ((Source → String → Option RouteResult) × String))
    (st : ResolverState) : ResolverState :=
  match calls with
  | [] => st
  | (f, cs) :: rest => resolveMany rest (fetchRouteForCallsign f st cs).state

/-- Normalizing the empty callsign gives the empty key. -/
theorem normalizeCallsign_empty : normalizeCallsign "" = "" := rfl

/-- A present cache entry short-circuits the resolver: the stored value
(present or absent) is returned, the state is untouched, no adapter runs. -/
theorem fetchRoute_cache_hit (fetch : Source → String → Option RouteResult)
    (st : ResolverState) (cs : String) (v : Option RouteResult)
    (hne : normalizeCallsign cs ≠ "")
    (hhit : st.routeCache.lookup (normalizeCallsign cs) = some v) :
    fetchRouteForCallsign fetch st cs = ⟨v, st, []⟩ := by
  have hcs : cs ≠ "" := by
    intro h
    rw [h, normalizeCallsign_empty] at hne
    exact hne rfl
  simp only [fetchRouteForCallsign, if_neg hcs, if_neg hne, hhit]

/-- Cache entries are never overwritten by a resolver call. -/
theorem fetchRoute_cache_persist (fetch : Source → String → Option RouteResult)
    (st : ResolverState) (cs : String) (k : String) (v : Option RouteResult)
    (h : st.routeCache.lookup k = some v) :
    ((fetchRouteForCallsign fetch st cs).state).routeCache.lookup k = some v := by
  unfold fetchRouteForCallsign
  by_cases hcs : cs = ""
  · simp [hcs, h]
  · rw [if_neg hcs]
    by_cases hkey : normalizeCallsign cs = ""
    · simp [hkey, h]
    · rw [if_neg hkey]
      cases hc : st.routeCache.lookup (normalizeCallsign cs) with
      | some cached => simpa using h
      | none =>
        have hne : (k == normalizeCallsign cs) = false := by
          rcases Bool.eq_false_or_eq_true (k == normalizeCallsign cs) with ht | hf
          · exfalso
            have : k = normalizeCallsign cs := eq_of_beq ht
            rw [this, hc] at h
            exact Option.noConfusion h
          · exact hf
        cases hr : runAdapters (fun s => fetch s (normalizeCallsign cs))
            (getRouteSourceOrderForAirline st.routeSourceStats
              (getAirlineKeyFromCallsign (normalizeCallsign cs))) with
        | mk o tr =>
          cases o with
          | some p =>
            obtain ⟨src, r⟩ := p
            simp [hr, List.lookup_cons, hne, h]
          | none => simp [hr, List.lookup_cons, hne, h]

/-- Cache entries persist across any sequence of resolver calls. -/
theorem resolveMany_cache_persist
    (calls : List ((Source → String → Option RouteResult) × String))
    (st : ResolverState) (k : String) (v : Option RouteResult)
    (h : st.routeCache.lookup k = some v) :
    (resolveMany calls st).routeCache.lookup k = some v := by
  induction calls generalizing st with
  | nil => exact h
  | cons c rest ih =>
    obtain ⟨f, cs⟩ := c
    exact ih _ (fetchRoute_cache_persist f st cs k v h)

/-- After a completed resolver call on a callsign with non-empty
normalization, the cache holds the returned value under the normalized key. -/
theorem fetchRoute_caches_result (fetch : Source → String → Option RouteResult)
    (st : ResolverState) (cs : String) (hne : normalizeCallsign cs ≠ "") :
    ((fetchRouteForCallsign fetch st cs).state).routeCache.lookup (normalizeCallsign cs)
      = some (fetchRouteForCallsign fetch st cs).result := by
  have hcs : cs ≠ "" := by
    intro h
    rw [h, normalizeCallsign_empty] at hne
    exact hne rfl
  unfold fetchRouteForCallsign
  rw [if_neg hcs, if_neg hne]
  cases hc : st.routeCache.lookup (normalizeCallsign cs) with
  | some cached => simpa using hc
  | none =>
    cases hr : runAdapters (fun s => fetch s (normalizeCallsign cs))
        (getRouteSourceOrderForAirline st.routeSourceStats
          (getAirlineKeyFromCallsign (normalizeCallsign cs))) with
    | mk o tr =>
      cases o with
      | some p =>
        obtain ⟨src, r⟩ := p
        simp [hr, List.lookup_cons]
      | none => simp [hr, List.lookup_cons]

/-- C1: the route cache is a strict memoization keyed by the trimmed,
uppercased callsign: once one call for `cs₁` completes, any later call (after
arbitrary interleaved resolver calls) for any `cs₂` with the same non-empty
normalization returns the value stored by the first call — including a stored
absent — leaves the state untouched, and invokes no adapter. -/
theorem routeCache_strict_memoization
    (f1 f2 : Source → String → Option RouteResult) (st : ResolverState)
    (cs1 cs2 : String)
    (calls : List ((Source → String → Option RouteResult) × String))
    (hnorm : normalizeCallsign cs2 = normalizeCallsign cs1)
    (hne : normalizeCallsign cs1 ≠ "") :
    fetchRouteForCallsign f2 (resolveMany calls (fetchRouteForCallsign f1 st cs1).state) cs2 =
      ⟨(fetchRouteForCallsign f1 st cs1).result,
       resolveMany calls (fetchRouteForCallsign f1 st cs1).state, []⟩ := by
  have h1 := fetchRoute_caches_result f1 st cs1 hne
  have h2 := resolveMany_cache_persist calls _ _ _ h1
  have hne2 : normalizeCallsign cs2 ≠ "" := by rw [hnorm]; exact hne
  exact fetchRoute_cache_hit f2 _ cs2 _ hne2 (by rw [hnorm]; exact h2)

/-- Concrete run of the memoization: `"ACA123"` resolves through the oracle
and a later `"aca123"` call (different case) returns the same stored value
with no adapter invoked; a failed resolution is likewise memoized as absent. -/
theorem routeCache_strict_memoization_witness :
    normalizeCallsign "aca123" = normalizeCallsign "ACA123" ∧
    normalizeCallsign "ACA123" ≠ "" ∧
    fetchRouteForCallsign (fun _ _ => none)
        (resolveMany []
          (fetchRouteForCallsign (fun _ _ => some ⟨"CYYZ", "KLAX"⟩) ⟨[], []⟩ "ACA123").state)
        "aca123" =
      ⟨(fetchRouteForCallsign (fun _ _ => some ⟨"CYYZ", "KLAX"⟩) ⟨[], []⟩ "ACA123").result,
       resolveMany []
         (fetchRouteForCallsign (fun _ _ => some ⟨"CYYZ", "KLAX"⟩) ⟨[], []⟩ "ACA123").state,
       []⟩ := by
  refine ⟨by decide, by decide, ?_⟩
  exact routeCache_strict_memoization (fun _ _ => some ⟨"CYYZ", "KLAX"⟩) (fun _ _ => none)
    ⟨[], []⟩ "ACA123" "aca123" [] (by decide) (by decide)

/-- Position of a source in the fixed default order. -/
def defaultIdx : Source → Nat
  | .adsbdb => 0
  | .aerodatabox => 1
  | .aviationstack => 2

/-- Recorded success count of a source for an airline key (`stats[a] || 0`
with a missing airline entry read as all-zero counters). -/
def successCount (stats : StatsMap) (airlineKey : String) (s : Source) : Nat :=
  ((stats.lookup airlineKey).getD ⟨0, 0, 0⟩).get s

/-- Stable insertion keeps the elements: the result is a permutation of
consing the new element. -/
theorem insertByCount_perm (sc : Source → Nat) (x : Source) (l : List Source) :
    (insertByCount sc x l).Perm (x :: l) := by
  induction l with
  | nil => exact List.Perm.refl _
  | cons y ys ih =>
    unfold insertByCount
    by_cases h : sc y ≤ sc x
    · rw [if_pos h]
    · rw [if_neg h]
      exact (ih.cons y).trans (List.Perm.swap x y ys)

/-- Stable insertion preserves strict sortedness by (count descending,
default index ascending), provided the inserted element precedes all list
elements in the default order. -/
theorem insertByCount_pairwise (sc : Source → Nat) (x : Source) (l : List Source)
    (hl : l.Pairwise (fun a b => sc b < sc a ∨ (sc b = sc a ∧ defaultIdx a < defaultIdx b)))
    (hidx : ∀ y ∈ l, defaultIdx x < defaultIdx y) :
    (insertByCount sc x l).Pairwise
      (fun a b => sc b < sc a ∨ (sc b = sc a ∧ defaultIdx a < defaultIdx b)) := by
  induction l with
  | nil => simp [insertByCount]
  | cons y ys ih =>
    rw [List.pairwise_cons] at hl
    obtain ⟨hy, hys⟩ := hl
    unfold insertByCount
    by_cases h : sc y ≤ sc x
    · rw [if_pos h]
      refine List.pairwise_cons.mpr ⟨?_, List.pairwise_cons.mpr ⟨hy, hys⟩⟩
      intro z hz
      rcases List.mem_cons.mp hz with rfl | hzys
      · rcases lt_or_eq_of_le h with hlt | heq
        · exact Or.inl hlt
        · exact Or.inr ⟨heq, hidx z (List.mem_cons_self _ _)⟩
      · have hyz := hy z hzys
        rcases hyz with h1 | ⟨h1, _⟩
        · exact Or.inl (lt_of_lt_of_le h1 h)
        · have hzx : sc z ≤ sc x := le_trans (le_of_eq h1) h
          rcases lt_or_eq_of_le hzx with hlt | heq
          · exact Or.inl hlt
          · exact Or.inr ⟨heq, hidx z (List.mem_cons_of_mem _ hzys)⟩
    · rw [if_neg h]
      push_neg at h
      refine List.pairwise_cons.mpr
        ⟨?_, ih hys (fun z hz => hidx z (List.mem_cons_of_mem _ hz))⟩
      intro z hz
      have hz' : z = x ∨ z ∈ ys :=
        List.mem_cons.mp ((insertByCount_perm sc x ys).mem_iff.mp hz)
      rcases hz' with rfl | hzys
      · exact Or.inl h
      · exact hy z hzys

/-- The three-source stable sort permutes the default order. -/
theorem sortSources_perm (sc : Source → Nat) :
    (defaultOrder.foldr (insertByCount sc) []).Perm defaultOrder := by
  have h1 := insertByCount_perm sc .adsbdb
    (insertByCount sc .aerodatabox (insertByCount sc .aviationstack []))
  have h2 := insertByCount_perm sc .aerodatabox (insertByCount sc .aviationstack [])
  have h3 := insertByCount_perm sc .aviationstack ([] : List Source)
  exact h1.trans ((h2.trans (h3.cons _)).cons _)

/-- The three-source stable sort is strictly sorted by (count descending,
default index ascending). -/
theorem sortSources_pairwise (sc : Source → Nat) :
    (defaultOrder.foldr (insertByCount sc) []).Pairwise
      (fun a b => sc b < sc a ∨ (sc b = sc a ∧ defaultIdx a < defaultIdx b)) := by
  apply insertByCount_pairwise
  · apply insertByCount_pairwise
    · apply insertByCount_pairwise
      · exact List.Pairwise.nil
      · intro y hy
        simp at hy
    · intro y hy
      have hmem := (insertByCount_perm sc .aviationstack []).mem_iff.mp hy
      have : y = .aviationstack := by simpa using hmem
      subst this
      decide
  · intro y hy
    have h1 := (insertByCount_perm sc .aerodatabox
      (insertByCount sc .aviationstack [])).mem_iff.mp hy
    rcases List.mem_cons.mp h1 with rfl | h2
    · decide
    · have hmem := (insertByCount_perm sc .aviationstack []).mem_iff.mp h2
      have : y = .aviationstack := by simpa using hmem
      subst this
      decide

/-- The try-order is a permutation of the three sources, sorted strictly by
descending success count with ties broken by default-order position. -/
theorem getRouteSourceOrder_sorted (stats : StatsMap) (airlineKey : String) :
    (getRouteSourceOrderForAirline stats airlineKey).Perm defaultOrder ∧
    (getRouteSourceOrderForAirline stats airlineKey).Pairwise (fun x y =>
      successCount stats airlineKey y < successCount stats airlineKey x ∨
      (successCount stats airlineKey y = successCount stats airlineKey x ∧
        defaultIdx x < defaultIdx y)) := by
  unfold getRouteSourceOrderForAirline successCount
  cases h : stats.lookup airlineKey with
  | none =>
    refine ⟨List.Perm.refl _, ?_⟩
    simp [defaultOrder, List.pairwise_cons, SourceStats.get, Option.getD, defaultIdx]
  | some s =>
    simp only [Option.getD_some]
    exact ⟨sortSources_perm s.get, sortSources_pairwise s.get⟩

/-- If a source is at least as successful as every other and strictly more
successful than every source placed before it in the default order, it heads
any list that is sorted the way `getRouteSourceOrderForAirline` sorts. -/
theorem order_head_of_max (sc : Source → Nat) (ord : List Source) (X : Source)
    (hperm : ord.Perm defaultOrder)
    (hpair : ord.Pairwise (fun x y => sc y < sc x ∨ (sc y = sc x ∧ defaultIdx x < defaultIdx y)))
    (hmax : ∀ Y, sc Y ≤ sc X)
    (hstrict : ∀ Y, defaultIdx Y < defaultIdx X → sc Y < sc X) :
    ord.head? = some X := by
  have hX : X ∈ ord := hperm.mem_iff.mpr (by cases X <;> simp [defaultOrder])
  cases ord with
  | nil => simp at hX
  | cons y ys =>
    rcases List.mem_cons.mp hX with rfl | hmem
    · rfl
    · have hrel := (List.pairwise_cons.mp hpair).1 X hmem
      rcases hrel with hlt | ⟨heq, hidx⟩
      · exact absurd hlt (not_lt.mpr (hmax y))
      · exact absurd (heq ▸ hstrict y hidx) (lt_irrefl _)

/-- The first adapter invoked by the resolver loop is the head of the list
it iterates. -/
theorem runAdapters_trace_head (f : Source → Option RouteResult) (l : List Source) :
    (runAdapters f l).2.head? = l.head? := by
  cases l with
  | nil => rfl
  | cons s rest =>
    unfold runAdapters
    cases hf : f s with
    | some r =>
      by_cases h : r.originIcao ≠ "" ∧ r.destinationIcao ≠ ""
      · simp [h]
      · cases hr : runAdapters f rest with
        | mk o tr => simp [h, hr]
    | none =>
      cases hr : runAdapters f rest with
      | mk o tr => simp [hr]

/-- On a cache miss the resolver's first invoked adapter is the head of the
computed try-order. -/
theorem fetchRoute_trace_head (fetch : Source → String → Option RouteResult)
    (st : ResolverState) (cs : String)
    (hne : normalizeCallsign cs ≠ "")
    (hmiss : st.routeCache.lookup (normalizeCallsign cs) = none) :
    (fetchRouteForCallsign fetch st cs).trace.head? =
      (getRouteSourceOrderForAirline st.routeSourceStats
        (getAirlineKeyFromCallsign (normalizeCallsign cs))).head? := by
  have hcs : cs ≠ "" := by
    intro h
    rw [h, normalizeCallsign_empty] at hne
    exact hne rfl
  unfold fetchRouteForCallsign
  rw [if_neg hcs, if_neg hne]
  simp only [hmiss]
  have hh := runAdapters_trace_head (fun s => fetch s (normalizeCallsign cs))
    (getRouteSourceOrderForAirline st.routeSourceStats
      (getAirlineKeyFromCallsign (normalizeCallsign cs)))
  cases hr : runAdapters (fun s => fetch s (normalizeCallsign cs))
      (getRouteSourceOrderForAirline st.routeSourceStats
        (getAirlineKeyFromCallsign (normalizeCallsign cs))) with
  | mk o tr =>
    rw [hr] at hh
    cases o with
    | some p =>
      obtain ⟨src, r⟩ := p
      simpa [hr] using hh
    | none => simpa [hr] using hh

/-- C2 (as stated) is refuted by ties: record one success for `aerodatabox`
and one for `adsbdb` on airline key `"ACA"`.  Then `aerodatabox` has a
positive success count and no source has a larger count, yet a fresh
resolution of the uncached callsign `"ACA999"` tries `adsbdb` first. -/
theorem routeSourceOrder_tie_counterexample :
    (1 ≤ successCount
      (recordRouteSourceSuccess (recordRouteSourceSuccess [] "ACA" .aerodatabox) "ACA" .adsbdb)
      "ACA" .aerodatabox) ∧
    (∀ Y : Source, successCount
      (recordRouteSourceSuccess (recordRouteSourceSuccess [] "ACA" .aerodatabox) "ACA" .adsbdb)
      "ACA" Y ≤ successCount
      (recordRouteSourceSuccess (recordRouteSourceSuccess [] "ACA" .aerodatabox) "ACA" .adsbdb)
      "ACA" .aerodatabox) ∧
    getAirlineKeyFromCallsign (normalizeCallsign "ACA999") = "ACA" ∧
    ([] : RouteCache).lookup (normalizeCallsign "ACA999") = none ∧
    (fetchRouteForCallsign (fun _ _ => none)
      ⟨[], recordRouteSourceSuccess (recordRouteSourceSuccess [] "ACA" .aerodatabox) "ACA" .adsbdb⟩
      "ACA999").trace.head? = some .adsbdb ∧
    Source.adsbdb ≠ Source.aerodatabox := by decide

/-- C2 amended: the try-order for any airline key is the three sources as a
permutation of the default order, strictly sorted by descending recorded
success count with ties broken by default-order position; consequently, when
source `X` has a positive success count on `"ACA"`, no source has a larger
count, and every source placed before `X` in the default order has a strictly
smaller count, a fresh resolution of an uncached `"ACA"`-keyed callsign
invokes `X` first. -/
theorem routeSourceOrder_adaptive :
    (∀ (stats : StatsMap) (airlineKey : String),
      (getRouteSourceOrderForAirline stats airlineKey).Perm defaultOrder ∧
      (getRouteSourceOrderForAirline stats airlineKey).Pairwise (fun x y =>
        successCount stats airlineKey y < successCount stats airlineKey x ∨
        (successCount stats airlineKey y = successCount stats airlineKey x ∧
          defaultIdx x < defaultIdx y))) ∧
    (∀ (fetch : Source → String → Option RouteResult) (st : ResolverState)
        (cs : String) (X : Source),
      st.routeCache.lookup (normalizeCallsign cs) = none →
      normalizeCallsign cs ≠ "" →
      getAirlineKeyFromCallsign (normalizeCallsign cs) = "ACA" →
      1 ≤ successCount st.routeSourceStats "ACA" X →
      (∀ Y, successCount st.routeSourceStats "ACA" Y ≤
        successCount st.routeSourceStats "ACA" X) →
      (∀ Y, defaultIdx Y < defaultIdx X →
        successCount st.routeSourceStats "ACA" Y <
          successCount st.routeSourceStats "ACA" X) →
      (fetchRouteForCallsign fetch st cs).trace.head? = some X) := by
  refine ⟨getRouteSourceOrder_sorted, ?_⟩
  intro fetch st cs X hmiss hne hkey _ hmax hstrict
  rw [fetchRoute_trace_head fetch st cs hne hmiss, hkey]
  obtain ⟨hperm, hpair⟩ := getRouteSourceOrder_sorted st.routeSourceStats "ACA"
  exact order_head_of_max (successCount st.routeSourceStats "ACA") _ X hperm hpair hmax hstrict

/-- Concrete adaptivity run: with two recorded `aerodatabox` successes and
one `adsbdb` success on `"ACA"`, a fresh resolution of `"ACA123"` invokes
`aerodatabox` first. -/
theorem routeSourceOrder_adaptive_witness :
    (getRouteSourceOrderForAirline [("ACA", ⟨1, 2, 0⟩)] "ACA").Perm defaultOrder ∧
    (fetchRouteForCallsign (fun _ _ => none) ⟨[], [("ACA", ⟨1, 2, 0⟩)]⟩
      "ACA123").trace.head? = some .aerodatabox :=
  ⟨(routeSourceOrder_adaptive.1 [("ACA", ⟨1, 2, 0⟩)] "ACA").1,
   routeSourceOrder_adaptive.2 (fun _ _ => none) ⟨[], [("ACA", ⟨1, 2, 0⟩)]⟩ "ACA123"
     .aerodatabox (by decide) (by decide) (by decide) (by decide) (by decide) (by decide)⟩

/-- The resolver's acceptance check succeeds exactly on a present result
with both ICAO fields non-empty. -/
theorem usableResult_iff (o : Option RouteResult) :
    usableResult o = true ↔ ∃ r, o = some r ∧ r.originIcao ≠ "" ∧ r.destinationIcao ≠ "" := by
  cases o with
  | none => simp [usableResult]
  | some r => simp [usableResult]

/-- If the adapter at position `i` yields the first usable result, the loop
returns exactly that result and invokes exactly the first `i + 1` adapters. -/
theorem runAdapters_found (f : Source → Option RouteResult) (l : List Source)
    (i : Nat) (hi : i < l.length)
    (hu : usableResult (f (l.get ⟨i, hi⟩)) = true)
    (hmin : ∀ (j : Nat) (hj : j < l.length), j < i → usableResult (f (l.get ⟨j, hj⟩)) = false) :
    ∃ r, f (l.get ⟨i, hi⟩) = some r ∧
      runAdapters f l = (some (l.get ⟨i, hi⟩, r), l.take (i + 1)) := by
  induction l generalizing i with
  | nil => simp at hi
  | cons s rest ih =>
    cases i with
    | zero =>
      obtain ⟨r, hr, ho, hd⟩ := (usableResult_iff _).mp hu
      refine ⟨r, hr, ?_⟩
      unfold runAdapters
      have hr' : f s = some r := hr
      rw [hr']
      simp [ho, hd]
    | succ i' =>
      have hi' : i' < rest.length := Nat.lt_of_succ_lt_succ hi
      have h0 : usableResult (f s) = false := by
        have hl : 0 < (s :: rest).length := by simp
        have := hmin 0 hl (Nat.succ_pos i')
        simpa using this
      have hu' : usableResult (f (rest.get ⟨i', hi'⟩)) = true := by simpa using hu
      have hmin' : ∀ (j : Nat) (hj : j < rest.length), j < i' →
          usableResult (f (rest.get ⟨j, hj⟩)) = false := by
        intro j hj hji
        have := hmin (j + 1) (Nat.succ_lt_succ hj) (Nat.succ_lt_succ hji)
        simpa using this
      obtain ⟨r, hr, hrun⟩ := ih i' hi' hu' hmin'
      refine ⟨r, by simpa using hr, ?_⟩
      unfold runAdapters
      cases hf : f s with
      | none =>
        simp [hrun]
      | some r0 =>
        have hnc : ¬(r0.originIcao ≠ "" ∧ r0.destinationIcao ≠ "") := by
          intro hc
          have ht : usableResult (f s) = true := (usableResult_iff _).mpr ⟨r0, hf, hc.1, hc.2⟩
          rw [h0] at ht
          exact Bool.noConfusion ht
        simp [hnc, hrun]

/-- If no adapter yields a usable result, the loop returns nothing and
invokes every adapter in order. -/
theorem runAdapters_none (f : Source → Option RouteResult) (l : List Source)
    (h : ∀ s ∈ l, usableResult (f s) = false) :
    runAdapters f l = (none, l) := by
  induction l with
  | nil => rfl
  | cons s rest ih =>
    have h0 : usableResult (f s) = false := h s (List.mem_cons_self _ _)
    have hrest := ih (fun z hz => h z (List.mem_cons_of_mem _ hz))
    unfold runAdapters
    cases hf : f s with
    | none =>
      simp [hrest]
    | some r0 =>
      have hnc : ¬(r0.originIcao ≠ "" ∧ r0.destinationIcao ≠ "") := by
        intro hc
        have ht : usableResult (f s) = true := (usableResult_iff _).mpr ⟨r0, hf, hc.1, hc.2⟩
        rw [h0] at ht
        exact Bool.noConfusion ht
      simp [hnc, hrest]

/-- Incrementing one source's counter adds one there and nothing elsewhere. -/
theorem SourceStats.get_incr (st : SourceStats) (src s : Source) :
    (st.incr src).get s = st.get s + (if s = src then 1 else 0) := by
  cases src <;> cases s <;> simp [SourceStats.incr, SourceStats.get]

/-- `recordRouteSourceSuccess` adds exactly one to the recorded pair. -/
theorem successCount_record_same (stats : StatsMap) (ak : String) (src : Source) :
    successCount (recordRouteSourceSuccess stats ak src) ak src =
      successCount stats ak src + 1 := by
  unfold successCount recordRouteSourceSuccess
  rw [List.lookup_cons]
  simp [SourceStats.get_incr]

/-- `recordRouteSourceSuccess` leaves every other (airline, source) pair
unchanged. -/
theorem successCount_record_other (stats : StatsMap) (ak : String) (src : Source)
    (ak' : String) (s' : Source) (h : ak' ≠ ak ∨ s' ≠ src) :
    successCount (recordRouteSourceSuccess stats ak src) ak' s' =
      successCount stats ak' s' := by
  unfold successCount recordRouteSourceSuccess
  rw [List.lookup_cons]
  by_cases hk : ak' = ak
  · subst hk
    rcases h with h | h
    · exact absurd rfl h
    · simp [SourceStats.get_incr, h]
  · simp [beq_false_of_ne hk]

/-- C3: on a cache miss the adapters run sequentially in the computed order;
the first usable result is returned, cached under the normalized callsign,
and counted once for its (airline key, source) pair, with no later adapter
invoked; when every adapter fails, the absent sentinel is cached and
returned, with the stats untouched. -/
theorem fetchRoute_cache_miss_spec
    (fetch : Source → String → Option RouteResult) (st : ResolverState)
    (cs key airlineKey : String) (order : List Source)
    (hkey : key = normalizeCallsign cs)
    (hak : airlineKey = getAirlineKeyFromCallsign key)
    (horder : order = getRouteSourceOrderForAirline st.routeSourceStats airlineKey)
    (hne : key ≠ "") (hmiss : st.routeCache.lookup key = none) :
    (∀ (i : Nat) (hi : i < order.length),
      usableResult (fetch (order.get ⟨i, hi⟩) key) = true →
      (∀ (j : Nat) (hj : j < order.length), j < i →
        usableResult (fetch (order.get ⟨j, hj⟩) key) = false) →
      (fetchRouteForCallsign fetch st cs).result = fetch (order.get ⟨i, hi⟩) key ∧
      (fetchRouteForCallsign fetch st cs).trace = order.take (i + 1) ∧
      (fetchRouteForCallsign fetch st cs).state.routeCache.lookup key =
        some (fetch (order.get ⟨i, hi⟩) key) ∧
      (∀ k, k ≠ key →
        (fetchRouteForCallsign fetch st cs).state.routeCache.lookup k =
          st.routeCache.lookup k) ∧
      successCount (fetchRouteForCallsign fetch st cs).state.routeSourceStats airlineKey
          (order.get ⟨i, hi⟩) =
        successCount st.routeSourceStats airlineKey (order.get ⟨i, hi⟩) + 1 ∧
      (∀ (ak : String) (s : Source), ak ≠ airlineKey ∨ s ≠ order.get ⟨i, hi⟩ →
        successCount (fetchRouteForCallsign fetch st cs).state.routeSourceStats ak s =
          successCount st.routeSourceStats ak s)) ∧
    ((∀ s ∈ order, usableResult (fetch s key) = false) →
      (fetchRouteForCallsign fetch st cs).result = none ∧
      (fetchRouteForCallsign fetch st cs).trace = order ∧
      (fetchRouteForCallsign fetch st cs).state.routeCache.lookup key = some none ∧
      (∀ k, k ≠ key →
        (fetchRouteForCallsign fetch st cs).state.routeCache.lookup k =
          st.routeCache.lookup k) ∧
      (fetchRouteForCallsign fetch st cs).state.routeSourceStats = st.routeSourceStats) := by
  subst hkey
  subst hak
  subst horder
  have hcs : cs ≠ "" := by
    intro h
    rw [h, normalizeCallsign_empty] at hne
    exact hne rfl
  constructor
  · intro i hi hu hmin
    obtain ⟨r, hr, hrun⟩ :=
      runAdapters_found (fun s => fetch s (normalizeCallsign cs)) _ i hi hu hmin
    have hout : fetchRouteForCallsign fetch st cs =
        ⟨some r,
         ⟨(normalizeCallsign cs, some r) :: st.routeCache,
          recordRouteSourceSuccess st.routeSourceStats
            (getAirlineKeyFromCallsign (normalizeCallsign cs))
            ((getRouteSourceOrderForAirline st.routeSourceStats
              (getAirlineKeyFromCallsign (normalizeCallsign cs))).get ⟨i, hi⟩)⟩,
         (getRouteSourceOrderForAirline st.routeSourceStats
            (getAirlineKeyFromCallsign (normalizeCallsign cs))).take (i + 1)⟩ := by
      unfold fetchRouteForCallsign
      rw [if_neg hcs, if_neg hne]
      simp only [hmiss, hrun]
    rw [hout]
    refine ⟨hr.symm, rfl, ?_, ?_, ?_, ?_⟩
    · simp only [List.lookup_cons, beq_self_eq_true, cond_true]
      rw [hr]
    · intro k hk
      simp only [List.lookup_cons, beq_false_of_ne hk, cond_false]
    · exact successCount_record_same _ _ _
    · intro ak s hne'
      exact successCount_record_other _ _ _ _ _ hne'
  · intro hall
    have hrun := runAdapters_none (fun s => fetch s (normalizeCallsign cs)) _ hall
    have hout : fetchRouteForCallsign fetch st cs =
        ⟨none,
         ⟨(normalizeCallsign cs, none) :: st.routeCache, st.routeSourceStats⟩,
         getRouteSourceOrderForAirline st.routeSourceStats
           (getAirlineKeyFromCallsign (normalizeCallsign cs))⟩ := by
      unfold fetchRouteForCallsign
      rw [if_neg hcs, if_neg hne]
      simp only [hmiss, hrun]
    rw [hout]
    refine ⟨rfl, rfl, ?_, ?_, rfl⟩
    · simp [List.lookup_cons]
    · intro k hk
      simp only [List.lookup_cons, beq_false_of_ne hk, cond_false]

/-- Concrete cache-miss run: with only the flight-number adapter answering,
resolving `"ACA123"` on fresh state tries `adsbdb` then `aerodatabox`, stops,
returns and caches the route, and counts one `aerodatabox` success for
`"ACA"`; a second concrete run where no adapter answers caches the absent
sentinel. -/
theorem fetchRoute_cache_miss_spec_witness :
    (fetchRouteForCallsign
        (fun s _ => if s = Source.aerodatabox then some ⟨"CYYZ", "KLAX"⟩ else none)
        ⟨[], []⟩ "ACA123").result = some ⟨"CYYZ", "KLAX"⟩ ∧
    (fetchRouteForCallsign
        (fun s _ => if s = Source.aerodatabox then some ⟨"CYYZ", "KLAX"⟩ else none)
        ⟨[], []⟩ "ACA123").trace = [.adsbdb, .aerodatabox] ∧
    successCount (fetchRouteForCallsign
        (fun s _ => if s = Source.aerodatabox then some ⟨"CYYZ", "KLAX"⟩ else none)
        ⟨[], []⟩ "ACA123").state.routeSourceStats "ACA" .aerodatabox = 1 ∧
    (fetchRouteForCallsign (fun _ _ => none) ⟨[], []⟩ "ACA123").result = none ∧
    (fetchRouteForCallsign (fun _ _ => none)
        ⟨[], []⟩ "ACA123").state.routeCache.lookup "ACA123" = some none := by
  have h := (fetchRoute_cache_miss_spec
      (fun s _ => if s = Source.aerodatabox then some ⟨"CYYZ", "KLAX"⟩ else none)
      ⟨[], []⟩ "ACA123" (normalizeCallsign "ACA123")
      (getAirlineKeyFromCallsign (normalizeCallsign "ACA123"))
      (getRouteSourceOrderForAirline [] (getAirlineKeyFromCallsign (normalizeCallsign "ACA123")))
      rfl rfl rfl (by decide) (by decide)).1 1 (by decide) (by decide) (by decide)
  obtain ⟨h1, h2, _, _, h5, _⟩ := h
  have h' := (fetchRoute_cache_miss_spec (fun _ _ => none)
      ⟨[], []⟩ "ACA123" (normalizeCallsign "ACA123")
      (getAirlineKeyFromCallsign (normalizeCallsign "ACA123"))
      (getRouteSourceOrderForAirline [] (getAirlineKeyFromCallsign (normalizeCallsign "ACA123")))
      rfl rfl rfl (by decide) (by decide)).2 (by decide)
  obtain ⟨h1', _, h3', _, _⟩ := h'
  refine ⟨h1.trans (by decide), h2.trans (by decide), h5.trans (by decide), h1', ?_⟩
  exact h3'

/-! ## Aircraft enricher (`enrichAircraftWithRoutes`) -/

/-- The per-record fields touched by enrichment (`baseFormatAircraft` output
restricted to the callsign and the four route/display fields, which start
out `null`). -/
structure Aircraft where
  callsign : String
  originIcao : Option String
  destinationIcao : Option String
  originDisplay : Option String
  destinationDisplay : Option String
deriving DecidableEq

deriving instance DecidableEq for Except

/-- One task of `enrichAircraftWithRoutes`: skip a record without a
callsign; resolve the route; on a route, assign the route fields, then look
up both display names (`Promise.all`); any exception from resolution or
display lookup is caught (`try/catch`), keeping whatever assignments
happened before the throw.  The resolver and the display lookup are oracles
that either return a value or throw. -/
def enrichOne (resolve : String → Except Unit (Option RouteResult))
    (display : String → Except Unit (Option String)) (ac : Aircraft) : Aircraft :=
  if ac.callsign = "" then ac
  else
    match resolve ac.callsign with
    | .error _ => ac
    | .ok none => ac
    | .ok (some route) =>
      let ac1 := { ac with originIcao := some route.originIcao,
                           destinationIcao := some route.destinationIcao }
      match display route.originIcao, display route.destinationIcao with
      | .ok odisp, .ok ddisp =>
        { ac1 with originDisplay := odisp, destinationDisplay := ddisp }
      | _, _ => ac1

/-- `enrichAircraftWithRoutes(aircraftList)`: one independent task per
record, collected by `Promise.all` in input order. -/
def enrichAircraftWithRoutes (resolve : String → Except Unit (Option RouteResult))
    (display : String → Except Unit (Option String))
    (aircraftList : List Aircraft) : List Aircraft :=
  aircraftList.map (enrichOne resolve display)

/-- C4 as stated fails on a display-lookup exception: the route fields were
already assigned before the throw, so the record is returned partially
enriched, not un-enriched (the batch itself is still returned intact). -/
theorem enrich_partial_mutation_counterexample :
    enrichAircraftWithRoutes (fun _ => .ok (some ⟨"CYYZ", "KLAX"⟩)) (fun _ => .error ())
        [⟨"ACA123", none, none, none, none⟩] =
      [⟨"ACA123", some "CYYZ", some "KLAX", none, none⟩] ∧
    (⟨"ACA123", some "CYYZ", some "KLAX", none, none⟩ : Aircraft) ≠
      ⟨"ACA123", none, none, none, none⟩ := by decide

/-- C4 amended: enrichment returns exactly one output record per input
record in the original input order, each output depending only on its own
input record; an exception from route resolution is caught and leaves that
record un-enriched, while an exception from a display-name lookup is caught
and leaves the record with its route fields assigned but no display fields;
in every case the remaining records of the batch are still enriched. -/
theorem enrich_batch_spec :
    (∀ (resolve : String → Except Unit (Option RouteResult))
       (display : String → Except Unit (Option String)) (l : List Aircraft),
      (enrichAircraftWithRoutes resolve display l).length = l.length) ∧
    (∀ (resolve : String → Except Unit (Option RouteResult))
       (display : String → Except Unit (Option String)) (l : List Aircraft)
       (i : Nat) (hi : i < l.length)
       (hi2 : i < (enrichAircraftWithRoutes resolve display l).length),
      (enrichAircraftWithRoutes resolve display l).get ⟨i, hi2⟩ =
        enrichOne resolve display (l.get ⟨i, hi⟩)) ∧
    (∀ (resolve : String → Except Unit (Option RouteResult))
       (display : String → Except Unit (Option String)) (ac : Aircraft),
      resolve ac.callsign = .error () → enrichOne resolve display ac = ac) ∧
    (∀ (resolve : String → Except Unit (Option RouteResult))
       (display : String → Except Unit (Option String)) (ac : Aircraft)
       (route : RouteResult),
      ac.callsign ≠ "" → resolve ac.callsign = .ok (some route) →
      (display route.originIcao = .error () ∨ display route.destinationIcao = .error ()) →
      enrichOne resolve display ac =
        { ac with originIcao := some route.originIcao,
                  destinationIcao := some route.destinationIcao }) := by
  refine ⟨?_, ?_, ?_, ?_⟩
  · intro resolve display l
    exact List.length_map l _
  · intro resolve display l i hi hi2
    simp [List.get_eq_getElem, List.getElem_map, enrichAircraftWithRoutes]
  · intro resolve display ac herr
    unfold enrichOne
    by_cases hcs : ac.callsign = ""
    · rw [if_pos hcs]
    · rw [if_neg hcs, herr]
  · intro resolve display ac route hcs hok hdisp
    unfold enrichOne
    rw [if_neg hcs]
    simp only [hok]
    cases hdo : display route.originIcao with
    | error e =>
      cases hdd : display route.destinationIcao with
      | error e2 => rfl
      | ok d2 => rfl
    | ok odisp =>
      cases hdd : display route.destinationIcao with
      | error e2 => rfl
      | ok ddisp =>
        exfalso
        rcases hdisp with hd | hd
        · rw [hdo] at hd
          exact Except.noConfusion hd
        · rw [hdd] at hd
          exact Except.noConfusion hd

/-- Concrete enrichment batch: the middle record's resolver throws and stays
untouched, the outer records are enriched, in input order. -/
theorem enrich_batch_spec_witness :
    (enrichAircraftWithRoutes
        (fun cs => if cs = "BAD1" then .error () else .ok (some ⟨"CYYZ", "KLAX"⟩))
        (fun _ => .ok (some "Toronto, CA"))
        [⟨"ACA123", none, none, none, none⟩, ⟨"BAD1", none, none, none, none⟩,
         ⟨"WJA22", none, none, none, none⟩]).length = 3 ∧
    enrichOne (fun cs => if cs = "BAD1" then .error () else .ok (some ⟨"CYYZ", "KLAX"⟩))
        (fun _ => .ok (some "Toronto, CA")) ⟨"BAD1", none, none, none, none⟩ =
      ⟨"BAD1", none, none, none, none⟩ ∧
    enrichOne (fun _ => .ok (some ⟨"CYYZ", "KLAX"⟩)) (fun _ => .error ())
        ⟨"ACA123", none, none, none, none⟩ =
      ⟨"ACA123", some "CYYZ", some "KLAX", none, none⟩ ∧
    enrichAircraftWithRoutes
        (fun cs => if cs = "BAD1" then .error () else .ok (some ⟨"CYYZ", "KLAX"⟩))
        (fun _ => .ok (some "Toronto, CA"))
        [⟨"ACA123", none, none, none, none⟩, ⟨"BAD1", none, none, none, none⟩,
         ⟨"WJA22", none, none, none, none⟩] =
      [⟨"ACA123", some "CYYZ", some "KLAX", some "Toronto, CA", some "Toronto, CA"⟩,
       ⟨"BAD1", none, none, none, none⟩,
       ⟨"WJA22", some "CYYZ", some "KLAX", some "Toronto, CA", some "Toronto, CA"⟩] := by
  refine ⟨enrich_batch_spec.1 _ _ _, ?_, ?_, by decide⟩
  · exact enrich_batch_spec.2.2.1 _ _ ⟨"BAD1", none, none, none, none⟩ (by decide)
  · exact enrich_batch_spec.2.2.2 _ _ ⟨"ACA123", none, none, none, none⟩
      ⟨"CYYZ", "KLAX"⟩ (by decide) (by decide) (Or.inl (by decide))

/-! ## Route source adapters -/

/-- The static ICAO → IATA airline-code table (`ICAO_TO_IATA`). -/
def ICAO_TO_IATA : List (String × String) :=
  [("ACA", "AC"), ("JZA", "QK"), ("ROU", "RV"), ("WJA", "WS"), ("WEN", "WR"),
   ("TSC", "TS"), ("POE", "PD"), ("QTR", "QR"), ("BAW", "BA"), ("AFR", "AF"),
   ("DLH", "LH"), ("KLM", "KL"), ("UAL", "UA"), ("AAL", "AA"), ("DAL", "DL"),
   ("JBU", "B6"), ("SWA", "WN")]

/-- ASCII digit (the `\d` character class). -/
def isDigitChar (c : Char) : Bool := '0' ≤ c && c ≤ '9'

/-- `parseFlightNumberFromCallsign`: match `^([A-Z]{2,3})(\d{1,4})$` against
the trimmed, uppercased callsign.  Since the two character classes are
disjoint and the pattern is anchored at both ends, the regex matches exactly
when the leading run of uppercase letters has length 2–3 and the entire
remainder is 1–4 digits, and the two groups are those runs. -/
def parseFlightNumberFromCallsign (callsignKey : String) : Option (String × String) :=
  if callsignKey = "" then none
  else
    let cs := normalizeCallsign callsignKey
    let letters := cs.data.takeWhile isUpperAlpha
    let rest := cs.data.dropWhile isUpperAlpha
    if 2 ≤ letters.length ∧ letters.length ≤ 3 ∧ 1 ≤ rest.length ∧ rest.length ≤ 4 ∧
        rest.all isDigitChar then
      some (⟨letters⟩, ⟨rest⟩)
    else none

/-- `buildFlightNumberCandidates`: the ICAO-prefixed form first, then — when
the static table has the prefix — the IATA-prefixed form (the JS `Set`
preserves insertion order and drops an equal second form). -/
def buildFlightNumberCandidates (callsignKey : String) : List String :=
  match parseFlightNumberFromCallsign callsignKey with
  | none => []
  | some (icaoCode, flightNumber) =>
    let c1 := icaoCode ++ flightNumber
    match ICAO_TO_IATA.lookup icaoCode with
    | none => [c1]
    | some iata =>
      let c2 := iata ++ flightNumber
      if c2 = c1 then [c1] else [c1, c2]

/-- Collapse a falsy value to `null` (the trailing `|| null`). -/
def truthyOrNull (v : Option String) : Option String :=
  if truthy v then v else none

/-- Airport object of an AeroDataBox flight, carrying the field-name aliases
probed by the code. -/
structure AdbAirport where
  icao : Option String
  icaoCode : Option String
  icao_code : Option String
  airportIcao : Option String
deriving DecidableEq

/-- The all-absent airport object (the `{}` fallback). -/
def AdbAirport.empty : AdbAirport := ⟨none, none, none, none⟩

/-- One AeroDataBox flight: departure/arrival under either alias. -/
structure AdbFlight where
  departure : Option AdbAirport
  dep : Option AdbAirport
  arrival : Option AdbAirport
  arr : Option AdbAirport
deriving DecidableEq

/-- Upstream outcome of one AeroDataBox candidate query: a thrown request
error, or the flight list the code resolves from the body via
`Array.isArray(body) ? body : body.flights || body.data || []` (a non-array
resolution is treated as the empty list by the subsequent guard). -/
inductive AdbResp
  | err
  | ok (flights : List AdbFlight)
deriving DecidableEq

/-- `dep.icao || dep.icaoCode || dep.icao_code || dep.airportIcao || null`. -/
def AdbAirport.icaoAlias (a : AdbAirport) : Option String :=
  truthyOrNull (jsOr a.icao (jsOr a.icaoCode (jsOr a.icao_code a.airportIcao)))

/-- Body of one iteration of the AeroDataBox candidate loop: skip on request
error or an empty flight list; read `flights[0]`; take `departure || dep`
and `arrival || arr`; probe the ICAO aliases; skip unless both are present;
otherwise return the uppercased pair. -/
def adbExtract : AdbResp → Option RouteResult
  | .err => none
  | .ok [] => none
  | .ok (f :: _) =>
    let dep := (f.departure <|> f.dep).getD AdbAirport.empty
    let arr := (f.arrival <|> f.arr).getD AdbAirport.empty
    match dep.icaoAlias, arr.icaoAlias with
    | some o, some d => some ⟨jsToUpperCase o, jsToUpperCase d⟩
    | _, _ => none

/-- The candidate loop of `fetchRouteFromAeroDataBox`: try each candidate in
order and return at the first usable extraction. -/
def adbTryCandidates (resp : String → AdbResp) : List String → Option RouteResult
  | [] => none
  | c :: rest =>
    match adbExtract (resp c) with
    | some r => some r
    | none => adbTryCandidates resp rest

/-- `fetchRouteFromAeroDataBox`: skipped entirely without an API key; builds
the flight-number candidates; returns early when there are none; otherwise
tries them in order against the upstream environment `resp`. -/
def fetchRouteFromAeroDataBox (hasKey : Bool) (resp : String → AdbResp)
    (callsignKey : String) : Option RouteResult :=
  if !hasKey then none
  else
    let candidates := buildFlightNumberCandidates callsignKey
    if candidates.isEmpty then none
    else adbTryCandidates resp candidates

/-- Every table entry maps a 3-letter ICAO code to a 2-character IATA code. -/
theorem ICAO_TO_IATA_entry_lengths :
    ∀ p ∈ ICAO_TO_IATA, p.1.length = 3 ∧ p.2.length = 2 := by decide

/-- If the first usable extraction is at candidate `i`, the loop returns it. -/
theorem adbTryCandidates_found (resp : String → AdbResp) (l : List String)
    (i : Nat) (hi : i < l.length)
    (hu : (adbExtract (resp (l.get ⟨i, hi⟩))).isSome = true)
    (hmin : ∀ (j : Nat) (hj : j < l.length), j < i →
      adbExtract (resp (l.get ⟨j, hj⟩)) = none) :
    adbTryCandidates resp l = adbExtract (resp (l.get ⟨i, hi⟩)) := by
  induction l generalizing i with
  | nil => simp at hi
  | cons c rest ih =>
    cases i with
    | zero =>
      unfold adbTryCandidates
      cases hx : adbExtract (resp c) with
      | some r =>
        rw [show (c :: rest).get ⟨0, hi⟩ = c from rfl, hx]
      | none =>
        rw [show (c :: rest).get ⟨0, hi⟩ = c from rfl, hx] at hu
        simp at hu
    | succ i' =>
      have hi' : i' < rest.length := Nat.lt_of_succ_lt_succ hi
      have h0 : adbExtract (resp c) = none := by
        have hl : 0 < (c :: rest).length := by simp
        have := hmin 0 hl (Nat.succ_pos i')
        simpa using this
      have hu' : (adbExtract (resp (rest.get ⟨i', hi'⟩))).isSome = true := by simpa using hu
      have hmin' : ∀ (j : Nat) (hj : j < rest.length), j < i' →
          adbExtract (resp (rest.get ⟨j, hj⟩)) = none := by
        intro j hj hji
        have := hmin (j + 1) (Nat.succ_lt_succ hj) (Nat.succ_lt_succ hji)
        simpa using this
      unfold adbTryCandidates
      rw [h0]
      simpa using ih i' hi' hu' hmin'

/-- If no candidate yields a usable extraction, the loop returns nothing. -/
theorem adbTryCandidates_exhausted (resp : String → AdbResp) (l : List String)
    (h : ∀ c ∈ l, adbExtract (resp c) = none) :
    adbTryCandidates resp l = none := by
  induction l with
  | nil => rfl
  | cons c rest ih =>
    unfold adbTryCandidates
    rw [h c (List.mem_cons_self _ _)]
    exact ih (fun z hz => h z (List.mem_cons_of_mem _ hz))

/-- C6: the flight-number adapter generates at most two candidates — the
ICAO form first, the IATA form exactly when the static table has the 2–3
letter prefix — tries them in order, returns the first extraction that has
both an origin and a destination code under the accepted aliases, and
returns null when the callsign fails `^[A-Z]{2,3}\d{1,4}$`, when the API key
is absent, or when every candidate is exhausted. -/
theorem fetchRouteFromAeroDataBox_spec :
    (∀ (resp : String → AdbResp) (cs : String),
      fetchRouteFromAeroDataBox false resp cs = none) ∧
    (∀ (resp : String → AdbResp) (cs : String),
      parseFlightNumberFromCallsign cs = none →
      fetchRouteFromAeroDataBox true resp cs = none) ∧
    (∀ (cs icaoCode flightNumber : String),
      parseFlightNumberFromCallsign cs = some (icaoCode, flightNumber) →
      (buildFlightNumberCandidates cs).length ≤ 2 ∧
      (ICAO_TO_IATA.lookup icaoCode = none →
        buildFlightNumberCandidates cs = [icaoCode ++ flightNumber]) ∧
      (∀ iata, ICAO_TO_IATA.lookup icaoCode = some iata →
        buildFlightNumberCandidates cs = [icaoCode ++ flightNumber, iata ++ flightNumber])) ∧
    (∀ (resp : String → AdbResp) (cs : String) (i : Nat)
        (hi : i < (buildFlightNumberCandidates cs).length),
      (adbExtract (resp ((buildFlightNumberCandidates cs).get ⟨i, hi⟩))).isSome = true →
      (∀ (j : Nat) (hj : j < (buildFlightNumberCandidates cs).length), j < i →
        adbExtract (resp ((buildFlightNumberCandidates cs).get ⟨j, hj⟩)) = none) →
      fetchRouteFromAeroDataBox true resp cs =
        adbExtract (resp ((buildFlightNumberCandidates cs).get ⟨i, hi⟩))) ∧
    (∀ (resp : String → AdbResp) (cs : String),
      (∀ c ∈ buildFlightNumberCandidates cs, adbExtract (resp c) = none) →
      fetchRouteFromAeroDataBox true resp cs = none) := by
  refine ⟨?_, ?_, ?_, ?_, ?_⟩
  · intro resp cs
    rfl
  · intro resp cs hparse
    unfold fetchRouteFromAeroDataBox buildFlightNumberCandidates
    rw [hparse]
    rfl
  · intro cs icaoCode flightNumber hparse
    have hcand : buildFlightNumberCandidates cs =
        (match ICAO_TO_IATA.lookup icaoCode with
         | none => [icaoCode ++ flightNumber]
         | some iata =>
           if iata ++ flightNumber = icaoCode ++ flightNumber then [icaoCode ++ flightNumber]
           else [icaoCode ++ flightNumber, iata ++ flightNumber]) := by
      unfold buildFlightNumberCandidates
      simp only [hparse]
    cases hl : ICAO_TO_IATA.lookup icaoCode with
    | none =>
      simp only [hl] at hcand
      refine ⟨?_, fun _ => hcand, fun iata h => ?_⟩
      · rw [hcand]
        simp
      · exact Option.noConfusion h
    | some iata =>
      simp only [hl] at hcand
      have h3 : icaoCode.length = 3 := (ICAO_TO_IATA_entry_lengths (icaoCode, iata) (lookup_mem hl)).1
      have h2 : iata.length = 2 := (ICAO_TO_IATA_entry_lengths (icaoCode, iata) (lookup_mem hl)).2
      have hne : iata ++ flightNumber ≠ icaoCode ++ flightNumber := by
        intro he
        have hle : (iata ++ flightNumber).length = (icaoCode ++ flightNumber).length :=
          congrArg String.length he
        rw [String.length_append, String.length_append] at hle
        omega
      rw [if_neg hne] at hcand
      refine ⟨?_, ?_, ?_⟩
      · rw [hcand]
        simp
      · intro h
        exact Option.noConfusion h
      · intro iata2 h
        cases h
        exact hcand
  · intro resp cs i hi hu hmin
    unfold fetchRouteFromAeroDataBox
    have hnonempty : ¬ (buildFlightNumberCandidates cs).isEmpty = true := by
      cases hc : buildFlightNumberCandidates cs with
      | nil => rw [hc] at hi; simp at hi
      | cons a as => simp [hc]
    simp only [Bool.not_true, if_false, if_neg hnonempty]
    exact adbTryCandidates_found resp _ i hi hu hmin
  · intro resp cs hall
    unfold fetchRouteFromAeroDataBox
    by_cases hc : (buildFlightNumberCandidates cs).isEmpty = true
    · simp [hc]
    · simp only [Bool.not_true, if_false, if_neg hc]
      exact adbTryCandidates_exhausted resp _ hall

/-- Concrete flight-number lookup: `"ACA123"` yields candidates
`["ACA123", "AC123"]`; with no flights for the first candidate and a usable
flight for the second, the adapter returns the second candidate's uppercased
route; without an API key it returns null. -/
theorem fetchRouteFromAeroDataBox_spec_witness :
    buildFlightNumberCandidates "ACA123" = ["ACA123", "AC123"] ∧
    fetchRouteFromAeroDataBox true
      (fun c => if c = "AC123"
        then .ok [⟨some ⟨some "cyyz", none, none, none⟩, none,
                   some ⟨none, some "klax", none, none⟩, none⟩]
        else .ok [])
      "ACA123" = some ⟨"CYYZ", "KLAX"⟩ ∧
    fetchRouteFromAeroDataBox false (fun _ => .err) "ACA123" = none := by
  have hc := ((fetchRouteFromAeroDataBox_spec.2.2.1 "ACA123" "ACA" "123" (by decide)).2.2
    "AC" (by decide))
  refine ⟨hc, ?_, fetchRouteFromAeroDataBox_spec.1 _ _⟩
  have h4 := fetchRouteFromAeroDataBox_spec.2.2.2.1
    (fun c => if c = "AC123"
      then .ok [⟨some ⟨some "cyyz", none, none, none⟩, none,
                 some ⟨none, some "klax", none, none⟩, none⟩]
      else .ok [])
    "ACA123"
  rw [hc] at h4
  have h := h4 1 (by decide) (by decide) (by decide)
  exact h.trans (by decide)

/-- Nested `route` object of an adsbdb payload. -/
structure AdsbdbRoute where
  origin : Option String
  destination : Option String
deriving DecidableEq

/-- Top-level adsbdb payload: optional `origin`/`destination` and an
optional nested `route`. -/
structure AdsbdbData where
  origin : Option String
  destination : Option String
  route : Option AdsbdbRoute
deriving DecidableEq

/-- Upstream outcome of the adsbdb call: thrown error or parsed body. -/
inductive AdsbdbResp
  | err
  | ok (data : AdsbdbData)
deriving DecidableEq

/-- `fetchRouteFromAdsbdb`: accept top-level `origin`/`destination`, fall
back to `route.origin`/`route.destination` when either is missing and a
`route` object exists, return null unless both end up truthy, else the
uppercased pair.  A thrown request error yields null. -/
def fetchRouteFromAdsbdb (resp : AdsbdbResp) : Option RouteResult :=
  match resp with
  | .err => none
  | .ok data =>
    let origin0 := data.origin
    let destination0 := data.destination
    let pair :=
      if ((!truthy origin0 || !truthy destination0) && data.route.isSome) = true then
        match data.route with
        | some rt => (jsOr origin0 rt.origin, jsOr destination0 rt.destination)
        | none => (origin0, destination0)
      else (origin0, destination0)
    if (truthy pair.1 && truthy pair.2) = true then
      some ⟨jsToUpperCase (pair.1.getD ""), jsToUpperCase (pair.2.getD "")⟩
    else none

/-- Airport object of an AviationStack flight (`icao`/`icao_code` aliases). -/
structure AvsAirport where
  icao : Option String
  icao_code : Option String
deriving DecidableEq

/-- One AviationStack flight. -/
structure AvsFlight where
  departure : Option AvsAirport
  arrival : Option AvsAirport
deriving DecidableEq

/-- Upstream outcome of the AviationStack call: thrown error (404 or other,
both yield null) or the `body.data` flight array. -/
inductive AvsResp
  | err (is404 : Bool)
  | ok (flights : List AvsFlight)
deriving DecidableEq

/-- `fetchRouteFromAviationStack`: skipped without an API key; null on error
or an empty flight list; else take the first flight's
`departure.icao || departure.icao_code` and the arrival counterpart, null
unless both present, else the uppercased pair. -/
def fetchRouteFromAviationStack (hasKey : Bool) (resp : AvsResp) : Option RouteResult :=
  if !hasKey then none
  else
    match resp with
    | .err _ => none
    | .ok [] => none
    | .ok (f :: _) =>
      let dep := f.departure.getD ⟨none, none⟩
      let arr := f.arrival.getD ⟨none, none⟩
      let originIcao := truthyOrNull (jsOr dep.icao dep.icao_code)
      let destinationIcao := truthyOrNull (jsOr arr.icao arr.icao_code)
      match originIcao, destinationIcao with
      | some o, some d => some ⟨jsToUpperCase o, jsToUpperCase d⟩
      | _, _ => none

/-! ## C10: the uppercase/non-empty invariant of stored routes -/

/-- A well-formed stored route: both fields non-empty and fixed by
uppercasing. -/
def goodRoute (r : RouteResult) : Prop :=
  r.originIcao ≠ "" ∧ jsToUpperCase r.originIcao = r.originIcao ∧
  r.destinationIcao ≠ "" ∧ jsToUpperCase r.destinationIcao = r.destinationIcao

/-- Every non-absent cache entry is a well-formed route. -/
def cacheGood (cache : RouteCache) : Prop :=
  ∀ k r, cache.lookup k = some (some r) → goodRoute r

/-- A truthy optional string is a present non-empty string. -/
theorem truthy_iff (o : Option String) :
    truthy o = true ↔ ∃ s, o = some s ∧ s ≠ "" := by
  cases o with
  | none => simp [truthy]
  | some s => simp [truthy]

/-- `truthyOrNull` yields only non-empty strings. -/
theorem truthyOrNull_some (v : Option String) (s : String)
    (h : truthyOrNull v = some s) : s ≠ "" := by
  unfold truthyOrNull at h
  by_cases ht : truthy v = true
  · rw [if_pos ht] at h
    obtain ⟨s2, hv, hs2⟩ := (truthy_iff v).mp ht
    rw [hv] at h
    cases h
    exact hs2
  · rw [if_neg ht] at h
    exact Option.noConfusion h

/-- An uppercased non-empty string is non-empty and fixed by uppercasing. -/
theorem jsToUpperCase_good (s : String) (h : s ≠ "") :
    jsToUpperCase s ≠ "" ∧ jsToUpperCase (jsToUpperCase s) = jsToUpperCase s :=
  ⟨fun he => h ((jsToUpperCase_eq_empty_iff s).mp he), jsToUpperCase_idem s⟩

/-- The final guard-and-uppercase step shared by the adapters yields only
well-formed routes. -/
theorem upperPair_good (p : Option String × Option String) (r : RouteResult)
    (h : (if (truthy p.1 && truthy p.2) = true then
          some (⟨jsToUpperCase (p.1.getD ""), jsToUpperCase (p.2.getD "")⟩ : RouteResult)
        else none) = some r) : goodRoute r := by
  split at h
  case isTrue ht =>
    rw [Bool.and_eq_true] at ht
    obtain ⟨ht1, ht2⟩ := ht
    obtain ⟨o, ho, hone⟩ := (truthy_iff _).mp ht1
    obtain ⟨d, hd, hdne⟩ := (truthy_iff _).mp ht2
    cases h
    rw [ho, hd]
    simp only [Option.getD_some]
    exact ⟨(jsToUpperCase_good o hone).1, (jsToUpperCase_good o hone).2,
      (jsToUpperCase_good d hdne).1, (jsToUpperCase_good d hdne).2⟩
  case isFalse => exact Option.noConfusion h

/-- Whatever the adsbdb payload, a returned route is well-formed. -/
theorem fetchRouteFromAdsbdb_good (resp : AdsbdbResp) (r : RouteResult)
    (h : fetchRouteFromAdsbdb resp = some r) : goodRoute r := by
  unfold fetchRouteFromAdsbdb at h
  cases resp with
  | err => exact Option.noConfusion h
  | ok data => exact upperPair_good _ _ h

/-- Whatever the AviationStack payload, a returned route is well-formed. -/
theorem fetchRouteFromAviationStack_good (hasKey : Bool) (resp : AvsResp) (r : RouteResult)
    (h : fetchRouteFromAviationStack hasKey resp = some r) : goodRoute r := by
  unfold fetchRouteFromAviationStack at h
  by_cases hk : hasKey = true
  all_goals simp only [hk] at h
  case neg => exact Option.noConfusion h
  cases resp with
  | err b => exact Option.noConfusion h
  | ok flights =>
    cases flights with
    | nil => exact Option.noConfusion h
    | cons f rest =>
      simp only at h
      cases hiO : truthyOrNull (jsOr (f.departure.getD ⟨none, none⟩).icao
          (f.departure.getD ⟨none, none⟩).icao_code) with
      | none => rw [hiO] at h; exact Option.noConfusion h
      | some o =>
        cases hiD : truthyOrNull (jsOr (f.arrival.getD ⟨none, none⟩).icao
            (f.arrival.getD ⟨none, none⟩).icao_code) with
        | none => rw [hiO, hiD] at h; exact Option.noConfusion h
        | some d =>
          rw [hiO, hiD] at h
          cases h
          have hone := truthyOrNull_some _ _ hiO
          have hdne := truthyOrNull_some _ _ hiD
          exact ⟨(jsToUpperCase_good o hone).1, (jsToUpperCase_good o hone).2,
            (jsToUpperCase_good d hdne).1, (jsToUpperCase_good d hdne).2⟩

/-- Whatever the AeroDataBox payload, a usable extraction is well-formed. -/
theorem adbExtract_good (resp : AdbResp) (r : RouteResult)
    (h : adbExtract resp = some r) : goodRoute r := by
  unfold adbExtract at h
  cases resp with
  | err => exact Option.noConfusion h
  | ok flights =>
    cases flights with
    | nil => exact Option.noConfusion h
    | cons f rest =>
      simp only at h
      cases hiO : ((f.departure <|> f.dep).getD AdbAirport.empty).icaoAlias with
      | none => rw [hiO] at h; exact Option.noConfusion h
      | some o =>
        cases hiD : ((f.arrival <|> f.arr).getD AdbAirport.empty).icaoAlias with
        | none => rw [hiO, hiD] at h; exact Option.noConfusion h
        | some d =>
          rw [hiO, hiD] at h
          cases h
          have hone := truthyOrNull_some _ _ hiO
          have hdne := truthyOrNull_some _ _ hiD
          exact ⟨(jsToUpperCase_good o hone).1, (jsToUpperCase_good o hone).2,
            (jsToUpperCase_good d hdne).1, (jsToUpperCase_good d hdne).2⟩

/-- A usable result of the AeroDataBox candidate loop is well-formed. -/
theorem adbTryCandidates_good (resp : String → AdbResp) (l : List String) (r : RouteResult)
    (h : adbTryCandidates resp l = some r) : goodRoute r := by
  induction l with
  | nil => exact Option.noConfusion h
  | cons c rest ih =>
    unfold adbTryCandidates at h
    cases hx : adbExtract (resp c) with
    | some r2 =>
      rw [hx] at h
      cases h
      exact adbExtract_good _ _ hx
    | none =>
      rw [hx] at h
      exact ih h

/-- A route returned by the flight-number adapter is well-formed. -/
theorem fetchRouteFromAeroDataBox_good (hasKey : Bool) (resp : String → AdbResp)
    (cs : String) (r : RouteResult)
    (h : fetchRouteFromAeroDataBox hasKey resp cs = some r) : goodRoute r := by
  unfold fetchRouteFromAeroDataBox at h
  by_cases hk : hasKey = true
  all_goals simp only [hk] at h
  case neg => exact Option.noConfusion h
  by_cases hc : (buildFlightNumberCandidates cs).isEmpty = true
  · rw [if_pos hc] at h
    exact Option.noConfusion h
  · rw [if_neg hc] at h
    exact adbTryCandidates_good _ _ _ h

/-- The full upstream environment of one resolver call. -/
structure AdapterEnv where
  adsbdbResp : String → AdsbdbResp
  adbHasKey : Bool
  adbResp : String → AdbResp
  avsHasKey : Bool
  avsResp : String → AvsResp

/-- The resolver's `if (source === ...)` dispatch, instantiated with the
three adapter models over an upstream environment. -/
def dispatchAdapters (env : AdapterEnv) : Source → String → Option RouteResult
  | .adsbdb, k => fetchRouteFromAdsbdb (env.adsbdbResp k)
  | .aerodatabox, k => fetchRouteFromAeroDataBox env.adbHasKey env.adbResp k
  | .aviationstack, k => fetchRouteFromAviationStack env.avsHasKey (env.avsResp k)

/-- Whatever the source and payload, a dispatched adapter result is
well-formed. -/
theorem dispatchAdapters_good (env : AdapterEnv) (s : Source) (k : String) (r : RouteResult)
    (h : dispatchAdapters env s k = some r) : goodRoute r := by
  cases s with
  | adsbdb => exact fetchRouteFromAdsbdb_good _ _ h
  | aerodatabox => exact fetchRouteFromAeroDataBox_good _ _ _ _ h
  | aviationstack => exact fetchRouteFromAviationStack_good _ _ _ h

/-- The winning pair of the adapter loop comes from the fetch itself. -/
theorem runAdapters_found_sound (f : Source → Option RouteResult) (l : List Source)
    (s : Source) (r : RouteResult) (tr : List Source)
    (h : runAdapters f l = (some (s, r), tr)) : f s = some r := by
  induction l generalizing tr with
  | nil => simp [runAdapters] at h
  | cons x rest ih =>
    unfold runAdapters at h
    cases hf : f x with
    | some r0 =>
      simp only [hf] at h
      by_cases hck : r0.originIcao ≠ "" ∧ r0.destinationIcao ≠ ""
      · rw [if_pos hck] at h
        simp only [Prod.mk.injEq, Option.some.injEq] at h
        obtain ⟨⟨h1, h2⟩, _⟩ := h
        rw [← h1, ← h2]
        exact hf
      · rw [if_neg hck] at h
        cases hr : runAdapters f rest with
        | mk o tr2 =>
          simp only [hr, Prod.mk.injEq] at h
          obtain ⟨h1, _⟩ := h
          rw [h1] at hr
          exact ih _ hr
    | none =>
      simp only [hf] at h
      cases hr : runAdapters f rest with
      | mk o tr2 =>
        simp only [hr, Prod.mk.injEq] at h
        obtain ⟨h1, _⟩ := h
        rw [h1] at hr
        exact ih _ hr

/-- C10: whichever adapter produced the result and whatever the letter case
of the upstream payload, every resolver call preserves the invariant that
each non-absent cached route — and any non-absent returned route — has both
`originIcao` and `destinationIcao` non-empty and fixed under uppercasing. -/
theorem resolver_upper_invariant (env : AdapterEnv) (st : ResolverState) (cs : String)
    (hst : cacheGood st.routeCache) :
    cacheGood (fetchRouteForCallsign (dispatchAdapters env) st cs).state.routeCache ∧
    (∀ r, (fetchRouteForCallsign (dispatchAdapters env) st cs).result = some r →
      goodRoute r) := by
  by_cases hcs : cs = ""
  · constructor
    · simpa [fetchRouteForCallsign, hcs] using hst
    · intro r hr
      simp [fetchRouteForCallsign, hcs] at hr
  · by_cases hkey : normalizeCallsign cs = ""
    · constructor
      · simpa [fetchRouteForCallsign, hcs, hkey] using hst
      · intro r hr
        simp [fetchRouteForCallsign, hcs, hkey] at hr
    · cases hc : st.routeCache.lookup (normalizeCallsign cs) with
      | some cached =>
        have hout := fetchRoute_cache_hit (dispatchAdapters env) st cs cached hkey hc
        rw [hout]
        refine ⟨hst, fun r hr => hst (normalizeCallsign cs) r ?_⟩
        rw [hc]
        exact congrArg some hr
      | none =>
        unfold fetchRouteForCallsign
        rw [if_neg hcs, if_neg hkey]
        simp only [hc]
        cases hr : runAdapters (fun s => dispatchAdapters env s (normalizeCallsign cs))
            (getRouteSourceOrderForAirline st.routeSourceStats
              (getAirlineKeyFromCallsign (normalizeCallsign cs))) with
        | mk o tr =>
          cases o with
          | some p =>
            obtain ⟨src, r⟩ := p
            have hgood : goodRoute r := dispatchAdapters_good env src (normalizeCallsign cs) r
              (runAdapters_found_sound _ _ _ _ _ hr)
            simp only [hr]
            constructor
            · intro k r2 hk
              rw [List.lookup_cons] at hk
              cases hbe : (k == normalizeCallsign cs) with
              | true =>
                rw [hbe] at hk
                simp only [cond_true, Option.some.injEq] at hk
                rw [← hk]
                exact hgood
              | false =>
                rw [hbe] at hk
                simp only [cond_false] at hk
                exact hst k r2 hk
            · intro r2 hr2
              simp only [Option.some.injEq] at hr2
              rw [← hr2]
              exact hgood
          | none =>
            simp only [hr]
            constructor
            · intro k r2 hk
              rw [List.lookup_cons] at hk
              cases hbe : (k == normalizeCallsign cs) with
              | true =>
                rw [hbe] at hk
                simp only [cond_true, Option.some.injEq] at hk
                exact Option.noConfusion hk
              | false =>
                rw [hbe] at hk
                simp only [cond_false] at hk
                exact hst k r2 hk
            · intro r2 hr2
              exact Option.noConfusion hr2

/-- Concrete invariant run, matching the end-to-end spec example: the
primary adapter answers `{origin:"cyyz", destination:"klax"}` in lower case
and the resolver returns and caches the uppercased pair. -/
theorem resolver_upper_invariant_witness :
    (∀ r, (fetchRouteForCallsign
        (dispatchAdapters ⟨fun _ => .ok ⟨some "cyyz", some "klax", none⟩,
          false, fun _ => .err, false, fun _ => .err false⟩)
        ⟨[], []⟩ "ACA123").result = some r → goodRoute r) ∧
    (fetchRouteForCallsign
        (dispatchAdapters ⟨fun _ => .ok ⟨some "cyyz", some "klax", none⟩,
          false, fun _ => .err, false, fun _ => .err false⟩)
        ⟨[], []⟩ "ACA123").result = some ⟨"CYYZ", "KLAX"⟩ ∧
    (fetchRouteForCallsign
        (dispatchAdapters ⟨fun _ => .ok ⟨some "cyyz", some "klax", none⟩,
          false, fun _ => .err, false, fun _ => .err false⟩)
        ⟨[], []⟩ "ACA123").state.routeCache.lookup "ACA123" =
      some (some ⟨"CYYZ", "KLAX"⟩) := by
  refine ⟨(resolver_upper_invariant _ ⟨[], []⟩ "ACA123"
    (fun k r h => Option.noConfusion h)).2, by decide, by decide⟩

/-! ## Reference data store (`loadCountryDb`, `loadAirportDb`) -/

/-- `parseCsvLine` from `server.js`: split one line on unquoted commas,
with RFC-4180 `""` escaping inside quoted fields (`current` is accumulated
in reverse). -/
def parseCsvLineAux : List Char → List Char → Bool → List String
  | [], current, _ => [⟨current.reverse⟩]
  | '"' :: '"' :: rest, current, true => parseCsvLineAux rest ('"' :: current) true
  | '"' :: rest, current, true => parseCsvLineAux rest current false
  | '"' :: rest, current, false => parseCsvLineAux rest current true
  | ',' :: rest, current, true => parseCsvLineAux rest (',' :: current) true
  | ',' :: rest, current, false => ⟨current.reverse⟩ :: parseCsvLineAux rest [] false
  | c :: rest, current, inQuotes => parseCsvLineAux rest (c :: current) inQuotes

/-- Split one CSV line into its fields. -/
def parseCsvLine (line : String) : List String :=
  parseCsvLineAux line.data [] false

/-- `text.split(/\r?\n/)`: split on newlines, swallowing a preceding CR. -/
def splitLinesAux : List Char → List Char → List String
  | [], cur => [⟨cur.reverse⟩]
  | '\r' :: '\n' :: rest, cur => ⟨cur.reverse⟩ :: splitLinesAux rest []
  | '\n' :: rest, cur => ⟨cur.reverse⟩ :: splitLinesAux rest []
  | c :: rest, cur => splitLinesAux rest (c :: cur)

/-- Split a text body into lines as the loaders do. -/
def splitLines (text : String) : List String := splitLinesAux text.data []

/-- Data-row loop of `loadCountryDb`: skip blank rows and rows whose
`code` or `name` column is missing or empty; later rows overwrite earlier
ones (newest binding first). -/
def parseCountryRows (codeIdx nameIdx : Option Nat) :
    List String → List (String × String) → List (String × String)
  | [], acc => acc
  | line :: rest, acc =>
    let t := jsTrim line
    if t = "" then parseCountryRows codeIdx nameIdx rest acc
    else
      let cols := parseCsvLine t
      let code := (codeIdx.bind fun i => cols.get? i).getD ""
      let name := (nameIdx.bind fun i => cols.get? i).getD ""
      if code = "" ∨ name = "" then parseCountryRows codeIdx nameIdx rest acc
      else parseCountryRows codeIdx nameIdx rest ((name, code) :: acc)

/-- Parse the OurAirports countries CSV (`loadCountryDb` success path): the
header row is scanned for columns literally named `code` and `name`
(`indexOf`, -1 modelled as `none`), then the data rows are folded. -/
def parseCountryCsv (text : String) : List (String × String) :=
  let lines := splitLines text
  let header := lines.headD ""
  let headerCols := parseCsvLine header
  let codeIdx := headerCols.findIdx? (· = "code")
  let nameIdx := headerCols.findIdx? (· = "name")
  parseCountryRows codeIdx nameIdx lines.tail []

/-- Row loop of `loadAirportDb`: skip blank rows, rows with fewer than six
columns, and rows with an empty ICAO; keys are uppercased. -/
def parseAirportRows : List String → List (String × AirportInfo) → List (String × AirportInfo)
  | [], acc => acc
  | line :: rest, acc =>
    if jsTrim line = "" then parseAirportRows rest acc
    else
      let cols := parseCsvLine line
      if cols.length < 6 then parseAirportRows rest acc
      else
        let city := (cols.get? 2).getD ""
        let countryName := (cols.get? 3).getD ""
        let icao := (cols.get? 5).getD ""
        if icao = "" then parseAirportRows rest acc
        else parseAirportRows rest ((jsToUpperCase icao, ⟨city, countryName⟩) :: acc)

/-- Parse the OpenFlights airports table (`loadAirportDb` success path). -/
def parseAirportsDat (text : String) : List (String × AirportInfo) :=
  parseAirportRows (splitLines text) []

/-- `loadCountryDb` as a state transition, with the memoized global
`countryNameToIso2` passed explicitly and the HTTP fetch an oracle: a
present snapshot is returned as-is with no fetch; otherwise the fetch is
issued — a failure stores and returns the empty map, a success stores and
returns the parsed map.  The `Nat` counts fetches issued by the call. -/
def loadCountryDb (fetchResult : Except Unit String)
    (st : Option (List (String × String))) :
    List (String × String) × Option (List (String × String)) × Nat :=
  match st with
  | some m => (m, some m, 0)
  | none =>
    match fetchResult with
    | .error _ => ([], some [], 1)
    | .ok text =>
      let m := parseCountryCsv text
      (m, some m, 1)

/-- `loadAirportDb` as a state transition, like `loadCountryDb` with the
`airportsByIcao` global. -/
def loadAirportDb (fetchResult : Except Unit String)
    (st : Option (List (String × AirportInfo))) :
    List (String × AirportInfo) × Option (List (String × AirportInfo)) × Nat :=
  match st with
  | some m => (m, some m, 0)
  | none =>
    match fetchResult with
    | .error _ => ([], some [], 1)
    | .ok text =>
      let m := parseAirportsDat text
      (m, some m, 1)

/-- Without a usable `code` header column, every country row is skipped. -/
theorem parseCountryRows_no_code (nameIdx : Option Nat) (rows : List String)
    (acc : List (String × String)) :
    parseCountryRows none nameIdx rows acc = acc := by
  induction rows with
  | nil => rfl
  | cons line rest ih =>
    unfold parseCountryRows
    by_cases ht : jsTrim line = ""
    · rw [if_pos ht]
      exact ih
    · rw [if_neg ht]
      dsimp only
      simp only [Option.none_bind, Option.getD_none]
      simp only [true_or, if_true]
      exact ih

/-- C7: a failed reference-dataset fetch stores the empty mapping and
returns it instead of propagating; a memoized snapshot is reused with no
further fetch for the rest of the process; a malformed response without a
`code` header column parses to the empty mapping; and display-name
resolution over the failed-load snapshots degrades to null. -/
theorem referenceData_failure_degrades :
    (loadCountryDb (.error ()) none = ([], some [], 1)) ∧
    (loadAirportDb (.error ()) none = ([], some [], 1)) ∧
    (∀ (fetchResult : Except Unit String) (m : List (String × String)),
      loadCountryDb fetchResult (some m) = (m, some m, 0)) ∧
    (∀ (fetchResult : Except Unit String) (m : List (String × AirportInfo)),
      loadAirportDb fetchResult (some m) = (m, some m, 0)) ∧
    (∀ text : String,
      (parseCsvLine ((splitLines text).headD "")).findIdx? (· = "code") = none →
      parseCountryCsv text = []) ∧
    (∀ code : String,
      getAirportDisplay (loadAirportDb (.error ()) none).1
        (loadCountryDb (.error ()) none).1 code = none) := by
  refine ⟨rfl, rfl, fun _ _ => rfl, fun _ _ => rfl, ?_, ?_⟩
  · intro text hidx
    unfold parseCountryCsv
    simp only [hidx]
    exact parseCountryRows_no_code _ _ _
  · intro code
    unfold getAirportDisplay
    by_cases hc : code = ""
    · rw [if_pos hc]
    · rw [if_neg hc]
      rfl

/-- Concrete degraded runs: a failed load yields empty snapshots, a second
call reuses them without fetching, a junk payload parses to the empty map,
and `getAirportDisplay` returns null on the degraded snapshots. -/
theorem referenceData_failure_degrades_witness :
    loadCountryDb (.error ()) none = ([], some [], 1) ∧
    loadCountryDb (.ok "code,name\nCA,Canada") (some []) = ([], some [], 0) ∧
    parseCountryCsv "<html>service unavailable</html>" = [] ∧
    getAirportDisplay (loadAirportDb (.error ()) none).1
      (loadCountryDb (.error ()) none).1 "CYYZ" = none := by
  refine ⟨referenceData_failure_degrades.1, referenceData_failure_degrades.2.2.1 _ _, ?_, ?_⟩
  · exact referenceData_failure_degrades.2.2.2.2.1 "<html>service unavailable</html>" (by decide)
  · exact referenceData_failure_degrades.2.2.2.2.2 "CYYZ"

/-! ## C8: concurrent first loads (event-loop interleaving of `loadCountryDb`) -/

/-- Program counter of one concurrent `loadCountryDb()` caller: before the
null-check, suspended at the `await axios.get(...)`, or returned. -/
inductive LoadPc
  | idle
  | fetching
  | finished
deriving DecidableEq

/-- Event-loop state for several concurrent callers of `loadCountryDb`: the
shared memoized global (`countryNameToIso2`), each caller's program counter,
and the number of HTTP fetches issued so far. -/
structure LoadWorld where
  store : Option (List (String × String))
  pcs : List LoadPc
  fetches : Nat
deriving DecidableEq

/-- One event-loop step of caller `i`: an idle caller runs the guard
`if (countryNameToIso2) return countryNameToIso2` and either finishes
without fetching or issues the fetch and suspends at the `await`; a
suspended caller resumes when its response arrives, stores the parsed map
(or the empty map on a thrown error) into the global, and finishes.  A step
of a finished or out-of-range caller does nothing. -/
def stepLoad (fetchResult : Except Unit String) (w : LoadWorld) (i : Nat) : LoadWorld :=
  match w.pcs.get? i with
  | some .idle =>
    match w.store with
    | some _ => { w with pcs := w.pcs.set i .finished }
    | none => { w with pcs := w.pcs.set i .fetching, fetches := w.fetches + 1 }
  | some .fetching =>
    let m := match fetchResult with
      | .error _ => []
      | .ok text => parseCountryCsv text
    { w with store := some m, pcs := w.pcs.set i .finished }
  | _ => w

/-- Run a schedule (sequence of caller indices) from a world. -/
def runLoadSched (fetchResult : Except Unit String) (w : LoadWorld) :
    List Nat → LoadWorld
  | [] => w
  | i :: rest => runLoadSched fetchResult (stepLoad fetchResult w i) rest

/-- C8 is refuted: the memoization guard is the completion-gated null-check
`if (countryNameToIso2)`, with no shared in-flight guard, so two concurrent
first callers that both pass the guard before either response arrives each
issue their own fetch — under the interleaving [0, 1, 0, 1] the dataset is
fetched twice in one process. -/
theorem loadDb_duplicate_fetch_counterexample :
    (runLoadSched (.error ()) ⟨none, [.idle, .idle], 0⟩ [0, 1, 0, 1]).fetches = 2 ∧
    (runLoadSched (.error ()) ⟨none, [.idle, .idle], 0⟩ [0, 1, 0, 1]).pcs =
      [.finished, .finished] := by decide

/-- C8 amended: the load is memoized only from completion onward — once the
global snapshot is set, no caller fetches again under any schedule, and a
second caller sequenced after the first completes produces exactly one
fetch in total; but callers that pass the null-check while the first fetch
is still in flight each issue their own fetch. -/
theorem loadDb_memoized_after_completion :
    (∀ (fetchResult : Except Unit String) (w : LoadWorld) (i : Nat),
      w.store.isSome = true →
      (stepLoad fetchResult w i).fetches = w.fetches ∧
        (stepLoad fetchResult w i).store.isSome = true) ∧
    (∀ (fetchResult : Except Unit String) (w : LoadWorld) (sched : List Nat),
      w.store.isSome = true →
      (runLoadSched fetchResult w sched).fetches = w.fetches) ∧
    (∀ fetchResult : Except Unit String,
      (runLoadSched fetchResult ⟨none, [.idle, .idle], 0⟩ [0, 0, 1]).fetches = 1) := by
  have hstep : ∀ (fetchResult : Except Unit String) (w : LoadWorld) (i : Nat),
      w.store.isSome = true →
      (stepLoad fetchResult w i).fetches = w.fetches ∧
        (stepLoad fetchResult w i).store.isSome = true := by
    intro fetchResult w i hs
    unfold stepLoad
    cases hp : w.pcs.get? i with
    | none => exact ⟨rfl, hs⟩
    | some pc =>
      cases pc with
      | idle =>
        cases hst : w.store with
        | none => rw [hst] at hs; exact Bool.noConfusion hs
        | some m => exact ⟨rfl, rfl⟩
      | fetching => exact ⟨rfl, rfl⟩
      | finished => exact ⟨rfl, hs⟩
  refine ⟨hstep, ?_, ?_⟩
  · intro fetchResult w sched
    induction sched generalizing w with
    | nil => intro _; rfl
    | cons i rest ih =>
      intro hs
      unfold runLoadSched
      obtain ⟨h1, h2⟩ := hstep fetchResult w i hs
      rw [ih _ h2, h1]
  · intro fetchResult
    rfl

/-- Concrete runs of the amended behaviour: with the snapshot already set,
a caller's step issues no fetch; a schedule where the second caller starts
after the first completed issues exactly one fetch. -/
theorem loadDb_memoized_after_completion_witness :
    (stepLoad (.error ()) ⟨some [], [.idle], 5⟩ 0).fetches = 5 ∧
    (runLoadSched (.error ()) ⟨some [("Canada", "CA")], [.idle, .idle], 3⟩ [0, 1]).fetches = 3 ∧
    (runLoadSched (.error ()) ⟨none, [.idle, .idle], 0⟩ [0, 0, 1]).fetches = 1 := by
  refine ⟨?_, ?_, loadDb_memoized_after_completion.2.2 (.error ())⟩
  · exact (loadDb_memoized_after_completion.1 (.error ()) ⟨some [], [.idle], 5⟩ 0 (by decide)).1
  · exact loadDb_memoized_after_completion.2.1 (.error ())
      ⟨some [("Canada", "CA")], [.idle, .idle], 3⟩ [0, 1] (by decide)

/-! ## Geospatial math (`bearingDegrees`, `bearingToDirection`), idealized
over the real numbers -/

/-- `toRad`: degrees to radians. -/
noncomputable def toRad (deg : Real) : Real := deg * Real.pi / 180

/-- `toDeg`: radians to degrees. -/
noncomputable def toDeg (rad : Real) : Real := rad * 180 / Real.pi

/-- JS `Math.atan2(y, x)` over the reals: the argument of `x + y·i`, in
`(-π, π]`, with `atan2(0, 0) = 0`. -/
noncomputable def atan2 (y x : Real) : Real := Complex.arg ⟨x, y⟩

/-- JS `%` (remainder with the dividend's sign) over the reals: truncated
division — floor of the quotient when it is non-negative, ceiling when
negative. -/
noncomputable def jsMod (a b : Real) : Real :=
  if 0 ≤ a / b then a - b * ⌊a / b⌋ else a - b * ⌈a / b⌉

/-- `bearingDegrees(lat1, lon1, lat2, lon2)` from `server.js`: the initial
great-circle bearing via the forward-azimuth formula, normalized to
`[0, 360)` by `(brng + 360) % 360`. -/
noncomputable def bearingDegrees (lat1 lon1 lat2 lon2 : Real) : Real :=
  let phi1 := toRad lat1
  let phi2 := toRad lat2
  let dLon := toRad (lon2 - lon1)
  let x := Real.sin dLon * Real.cos phi2
  let y := Real.cos phi1 * Real.sin phi2 - Real.sin phi1 * Real.cos phi2 * Real.cos dLon
  jsMod (toDeg (atan2 x y) + 360) 360

/-- `bearingToDirection(brng)` from `server.js`: index the compass list by
`Math.floor((brng + 22.5) / 45) % 8`.  `Int.emod` agrees with the JS `%`
on the non-negative floors produced by the bearings in `[0, 360)` that the
callers pass. -/
noncomputable def bearingToDirection (brng : Real) : String :=
  let dirs := ["N", "NE", "E", "SE", "S", "SW", "W", "NW"]
  dirs.getD (⌊(brng + 22.5) / 45⌋ % 8).toNat "N"

/-- The JS remainder of a non-negative dividend by a positive divisor lies
in `[0, b)`. -/
theorem jsMod_nonneg_lt (a b : Real) (hb : 0 < b) (ha : 0 ≤ a) :
    0 ≤ jsMod a b ∧ jsMod a b < b := by
  have hq : 0 ≤ a / b := div_nonneg ha hb.le
  unfold jsMod
  rw [if_pos hq]
  have h2 : b * (a / b) = a := by
    field_simp
  have h1 : a - b * ⌊a / b⌋ = b * Int.fract (a / b) := by
    rw [Int.fract, mul_sub, h2]
  rw [h1]
  constructor
  · exact mul_nonneg hb.le (Int.fract_nonneg _)
  · have hlt := mul_lt_mul_of_pos_left (Int.fract_lt_one (a / b)) hb
    rw [mul_one] at hlt
    exact hlt

/-- The azimuth in degrees lies in `(-180, 180]`. -/
theorem toDeg_atan2_bounds (y x : Real) :
    -180 < toDeg (atan2 y x) ∧ toDeg (atan2 y x) ≤ 180 := by
  have h1 := Complex.neg_pi_lt_arg ⟨x, y⟩
  have h2 := Complex.arg_le_pi (⟨x, y⟩ : Complex)
  have hpi := Real.pi_pos
  unfold toDeg atan2
  constructor
  · rw [lt_div_iff hpi]
    nlinarith
  · rw [div_le_iff hpi]
    nlinarith

/-- The normalization `(t + 360) % 360` of an azimuth lands in `[0, 360)`. -/
theorem jsMod_azimuth (t : Real) (h1 : -180 < t) (h2 : t ≤ 180) :
    0 ≤ jsMod (t + 360) 360 ∧ jsMod (t + 360) 360 < 360 :=
  jsMod_nonneg_lt (t + 360) 360 (by norm_num) (by linarith)

/-- `bearingDegrees` always lands in `[0, 360)`. -/
theorem bearingDegrees_bounds (lat1 lon1 lat2 lon2 : Real) :
    0 ≤ bearingDegrees lat1 lon1 lat2 lon2 ∧ bearingDegrees lat1 lon1 lat2 lon2 < 360 := by
  simp only [bearingDegrees]
  exact jsMod_azimuth _ (toDeg_atan2_bounds _ _).1 (toDeg_atan2_bounds _ _).2

/-- The bearing from a point to itself is `0`. -/
theorem bearingDegrees_self (lat lon : Real) : bearingDegrees lat lon lat lon = 0 := by
  simp only [bearingDegrees]
  have hx : Real.sin (toRad (lon - lon)) * Real.cos (toRad lat) = 0 := by
    simp [toRad]
  have hy : Real.cos (toRad lat) * Real.sin (toRad lat) -
      Real.sin (toRad lat) * Real.cos (toRad lat) * Real.cos (toRad (lon - lon)) = 0 := by
    simp [toRad]
    ring
  rw [hx, hy]
  have ha : atan2 0 0 = 0 := by
    unfold atan2
    have : (⟨0, 0⟩ : Complex) = 0 := by
      simp [Complex.ext_iff]
    rw [this]
    exact Complex.arg_zero
  rw [ha]
  have hd : toDeg 0 = 0 := by
    simp [toDeg]
  rw [hd]
  have h360 : (0 : Real) + 360 = 360 := by norm_num
  rw [h360]
  unfold jsMod
  rw [if_pos (by norm_num : (0 : Real) ≤ 360 / 360)]
  norm_num

/-- Every valid index selects a member of the 8-point compass list. -/
theorem dirs_getD_mem (i : Nat) (h : i < 8) :
    (["N", "NE", "E", "SE", "S", "SW", "W", "NW"].getD i "N") ∈
      ["N", "NE", "E", "SE", "S", "SW", "W", "NW"] := by
  interval_cases i <;> decide

/-- `bearingToDirection` of a bearing in `[0, 360)` is one of the eight
compass points. -/
theorem bearingToDirection_mem (b : Real) (h0 : 0 ≤ b) (h1 : b < 360) :
    bearingToDirection b ∈ ["N", "NE", "E", "SE", "S", "SW", "W", "NW"] := by
  simp only [bearingToDirection]
  apply dirs_getD_mem
  have hmod : 0 ≤ ⌊(b + 22.5) / 45⌋ % 8 := Int.emod_nonneg _ (by norm_num)
  have hlt : ⌊(b + 22.5) / 45⌋ % 8 < 8 := Int.emod_lt_of_pos _ (by norm_num)
  omega

/-- Bearings in `[337.5, 360)` wrap around to `"N"`. -/
theorem bearingToDirection_wrap (b : Real) (h0 : 337.5 ≤ b) (h1 : b < 360) :
    bearingToDirection b = "N" := by
  have hfloor : ⌊(b + 22.5) / 45⌋ = 8 := by
    rw [Int.floor_eq_iff]
    constructor
    · rw [le_div_iff (by norm_num : (0 : Real) < 45)]
      push_cast
      linarith
    · rw [div_lt_iff (by norm_num : (0 : Real) < 45)]
      push_cast
      linarith
  simp only [bearingToDirection, hfloor]
  decide

/-- C9: over the real-number idealization of the JS floats, `bearingDegrees`
always returns a value in `[0, 360)` and is `0` from a point to itself, and
`bearingToDirection` maps every bearing in `[0, 360)` into the eight-point
compass set via `floor((bearing + 22.5) / 45) mod 8` over the clockwise
list starting at `N`, so bearings in `[337.5, 360)` map back to `N`. -/
theorem geomath_spec :
    (∀ lat1 lon1 lat2 lon2 : Real, 0 ≤ bearingDegrees lat1 lon1 lat2 lon2 ∧
      bearingDegrees lat1 lon1 lat2 lon2 < 360) ∧
    (∀ b : Real, 0 ≤ b → b < 360 →
      bearingToDirection b ∈ ["N", "NE", "E", "SE", "S", "SW", "W", "NW"]) ∧
    (∀ b : Real, 337.5 ≤ b → b < 360 → bearingToDirection b = "N") ∧
    (∀ lat lon : Real, bearingDegrees lat lon lat lon = 0) :=
  ⟨fun lat1 lon1 lat2 lon2 => bearingDegrees_bounds lat1 lon1 lat2 lon2,
   bearingToDirection_mem, bearingToDirection_wrap, bearingDegrees_self⟩

/-- Concrete geometry instances: the bounds at one coordinate pair, the
compass membership at `45°`, the wrap-around at `350°`, and the
self-bearing at one point. -/
theorem geomath_spec_witness :
    (0 ≤ bearingDegrees 0 0 10 10 ∧ bearingDegrees 0 0 10 10 < 360) ∧
    bearingToDirection 45 ∈ ["N", "NE", "E", "SE", "S", "SW", "W", "NW"] ∧
    bearingToDirection 350 = "N" ∧
    bearingDegrees 1 2 1 2 = 0 :=
  ⟨geomath_spec.1 0 0 10 10,
   geomath_spec.2.1 45 (by norm_num) (by norm_num),
   geomath_spec.2.2.1 350 (by norm_num) (by norm_num),
   geomath_spec.2.2.2 1 2⟩

end WHA
